import Mathlib

/-!
# Audio CD input plugin (cdaudio-ng): session state machine and playback loop

A shallow embedding of `src/cdaudio-ng/cdaudio-ng.c`.

* The file-scope statics (`seek_time`, `playing`, `firsttrackno`, `lasttrackno`,
  `n_audio_tracks`, `pcdrom_drive`, `trackinfo`, `monitor_source`) become the
  fields of `Session`; every function that runs under the mutex is a pure
  function on `Session` that also returns the list of externally visible
  `Event`s it caused, in program order.
* The answers of the collaborators (libcdio, libcddb, the host configuration
  and the output sink) are inputs, collected in `Env`.
* The playback thread releases the mutex around the blocking sector read.
  Whatever the other threads do in that window is given by a `Tick`: the
  outcome of the read and the host commands served meanwhile.
* Sector numbers and counters are mathematical integers (a disc has fewer than
  `2^19` sectors).  Products of host supplied millisecond values are reduced to
  the 32-bit `int` range by `wrap32`; division truncates toward zero.
-/

namespace CdAudio

/-! ## C arithmetic -/

/-- Reduction of a mathematical integer to the two's-complement 32-bit range of `int`. -/
def wrap32 (x : Int) : Int := (x + 2147483648) % 4294967296 - 2147483648

/-- Integer division of C: the quotient is truncated toward zero. -/
def cdiv (a b : Int) : Int := Int.tdiv a b

/-- The glib macro `MIN (a, b)`: `((a) < (b)) ? (a) : (b)`. -/
def MIN (a b : Int) : Int := if a < b then a else b

/-- The glib macro `CLAMP (x, low, high)`:
`((x) > (high)) ? (high) : (((x) < (low)) ? (low) : (x))`. -/
def CLAMP (x low high : Int) : Int := if x > high then high else if x < low then low else x

def DEF_STRING_LEN : Nat := 256
def MIN_DISC_SPEED : Int := 2
def MAX_DISC_SPEED : Int := 24
def MAX_RETRIES : Int := 10
def MAX_SKIPS : Int := 10

/-! ## C strings and the two naming forms -/

/-- A NUL-terminated C string, given by its characters before the terminator. -/
abbrev CStr := List Char

/-- The test `strncmp (a, b, n) == 0`: the first `n` characters agree, where a
string that ends early only agrees with one that ends at the same place. -/
def strncmp_eq : Nat → CStr → CStr → Bool
  | 0, _, _ => true
  | _ + 1, [], [] => true
  | _ + 1, [], _ :: _ => false
  | _ + 1, _ :: _, [] => false
  | n + 1, a :: as, b :: bs => a == b && strncmp_eq n as bs

/-- The C library predicate `isspace` in the "C" locale. -/
def isspace (c : Char) : Bool :=
  c == ' ' || c == '\t' || c == '\n' || c == '\x0b' || c == '\x0c' || c == '\r'

/-- The C library predicate `isdigit`. -/
def isdigit (c : Char) : Bool := decide (48 ≤ c.toNat ∧ c.toNat ≤ 57)

/-- Leading white space is skipped by the `%d` conversion. -/
def skip_space : CStr → CStr
  | [] => []
  | c :: cs => if isspace c then skip_space cs else c :: cs

/-- The value of the longest run of decimal digits at the front of the input,
continuing from the value `acc` of the digits already read. -/
def scan_digits : CStr → Nat → Nat
  | [], acc => acc
  | c :: cs, acc => if isdigit c then scan_digits cs (acc * 10 + (c.toNat - 48)) else acc

/-- The largest value of `long` on an LP64 platform. -/
def LONG_MAX : Int := 9223372036854775807

/-- The number the `%d` conversion stores in an `int` for a digit string of exact
value `v`, as glibc does it: `strtol` saturates at the ends of the range of
`long` and the result is truncated to its low 32 bits.  (Outside the range of
`long` the C standard leaves the behaviour undefined.) -/
def store_int (v : Int) : Int :=
  wrap32 (if v > LONG_MAX then LONG_MAX else if v < -LONG_MAX - 1 then -LONG_MAX - 1 else v)

/-- The call `sscanf (s, "%d", &track) == 1` of the C library together with the
value it stores: white space is skipped, an optional sign is read, and at least
one decimal digit must follow; what comes after the digits is left unread.
`none` stands for every return value other than 1 (a matching failure or the
end of the input). -/
def sscanf_d (s : CStr) : Option Int :=
  match skip_space s with
  | [] => none
  | c :: cs =>
    if c == '-' then
      match cs with
      | [] => none
      | d :: ds => if isdigit d then some (store_int (-(scan_digits (d :: ds) 0 : Int))) else none
    else if c == '+' then
      match cs with
      | [] => none
      | d :: ds => if isdigit d then some (store_int (scan_digits (d :: ds) 0 : Int)) else none
    else if isdigit c then some (store_int (scan_digits (c :: cs) 0 : Int))
    else none

/-- Source: `cdaudio_is_our_file` returns `!strncmp (filename, "cdda://", 7)`. -/
def cdaudio_is_our_file (filename : CStr) : Bool :=
  strncmp_eq 7 filename "cdda://".toList

/-- Source: `find_trackno_from_filename`. -/
def find_trackno_from_filename (filename : CStr) : Int :=
  if !(strncmp_eq 8 filename "cdda://?".toList) then -1
  else
    match sscanf_d (filename.drop 8) with
    | none => -1
    | some track => track

/-- Source: `calculate_track_length`. -/
def calculate_track_length (startlsn endlsn : Int) : Int :=
  cdiv (wrap32 ((endlsn - startlsn + 1) * 1000)) 75

/-! ## Events -/

/-- Externally visible actions, in the order the program performs them. -/
inductive Event where
  /-- Call `cdaudio_error` (a user-visible error notification). -/
  | error (msg : String)
  /-- Call `warn` (a diagnostic on stderr). -/
  | warn (msg : String)
  /-- Call `g_timeout_add_seconds (1, monitor, NULL)`. -/
  | timer_add
  /-- Call `g_source_remove`. -/
  | timer_remove
  /-- Call `cdda_identify` on a device. -/
  | drive_identify (device : CStr)
  /-- Call `cdda_close`. -/
  | drive_close
  /-- Call `cdio_get_discmode`. -/
  | get_discmode
  /-- Call `cdio_get_media_changed`. -/
  | get_media_changed
  /-- Entry of `scan_cd` past its two guards. -/
  | scan
  /-- Call `cdda_speed_set`. -/
  | speed_set (speed : Int)
  /-- Call `cddb_query`. -/
  | cddb_query
  /-- Call `cddb_read`. -/
  | cddb_read
  /-- Call `purge_all_playlists`. -/
  | purge_all_playlists
  /-- Call `p->output->open_audio (FMT_S16_LE, 44100, 2)`. -/
  | open_audio
  /-- Call `p->output->pause`. -/
  | pause (flag : Bool)
  /-- Call `p->set_params (p, bitrate, rate, channels)`. -/
  | set_params (bitrate rate channels : Int)
  /-- Call `p->set_pb_ready`. -/
  | set_pb_ready
  /-- Call `p->output->flush`. -/
  | flush (time : Int)
  /-- Call `cdio_read_audio_sectors (.., lsn, count)`. -/
  | read (lsn count : Int)
  /-- Call `p->output->write_audio (buffer, bytes)`. -/
  | write (bytes : Int)
  /-- Call `p->output->abort_write`. -/
  | abort_write
  deriving DecidableEq, Repr

/-! ## The playback read loop -/

/-- The variables the read loop of `cdaudio_play` works on: its locals
`currlsn`, `sectors`, `retry_count`, `skip_count` and the two statics
`seek_time` and `playing` that other threads may set. -/
structure PlayState where
  currlsn : Int
  sectors : Int
  retry_count : Int
  skip_count : Int
  seek_time : Int
  playing : Bool
  deriving DecidableEq, Repr

/-- A command of the host, served on the main thread. -/
inductive Cmd where
  | stop
  | mseek (time : Int)
  | pause (flag : Bool)
  deriving DecidableEq, Repr

/-- What happens while the playback thread has released the mutex for one
sector read: the outcome of the read (`ok` for `DRIVER_OP_SUCCESS`) and the
host commands that took the mutex meanwhile. -/
structure Tick where
  ok : Bool
  cmds : List Cmd
  deriving DecidableEq, Repr

/-- Why the read loop was left. -/
inductive Exit where
  /-- The loop condition `playing` was false. -/
  | stopped
  /-- The clamped batch was empty: `sectors < 1`. -/
  | exhausted
  /-- The last branch of the recovery: "Error reading audio CD." -/
  | fatal
  deriving DecidableEq, Repr

/-- Source: `cdaudio_stop`, `cdaudio_pause` and `cdaudio_mseek`, as they act on the
two statics the loop reads and on the sink. -/
def serve (c : Cmd) (st : PlayState) : List Event × PlayState :=
  match c with
  | Cmd.stop => ([Event.abort_write], { st with playing := false })
  | Cmd.pause flag => ([Event.pause flag], st)
  | Cmd.mseek time => ([Event.abort_write], { st with seek_time := time })

/-- Serve a list of commands in order. -/
def serveAll : List Cmd → PlayState → List Event × PlayState
  | [], st => ([], st)
  | c :: cs, st =>
    let r := serve c st
    let r2 := serveAll cs r.2
    (r.1 ++ r2.1, r2.2)

/-- The seek block at the top of the loop body (`if (seek_time >= 0) ...`). -/
def applySeek (startlsn : Int) (st : PlayState) : List Event × PlayState :=
  if st.seek_time ≥ 0 then
    ([Event.flush st.seek_time],
     { st with currlsn := startlsn + cdiv (wrap32 (st.seek_time * 75)) 1000, seek_time := -1 })
  else ([], st)

/-- The statement `sectors = MIN (sectors, endlsn + 1 - currlsn)`. -/
def clampSectors (endlsn : Int) (st : PlayState) : PlayState :=
  { st with sectors := MIN st.sectors (endlsn + 1 - st.currlsn) }

/-- The branch of the `if`/`else if` chain taken after a read, in source order. -/
inductive Branch where
  /-- Branch `ret == DRIVER_OP_SUCCESS`. -/
  | advance
  /-- Branch `sectors > 16`: "maybe a smaller read size will help". -/
  | halve
  /-- Branch `retry_count < MAX_RETRIES`: "still failed; retry a few times". -/
  | retry
  /-- Branch `skip_count < MAX_SKIPS`: "maybe the disk is scratched; try skipping ahead". -/
  | skip
  /-- The last branch: "still failed; give it up". -/
  | giveUp
  deriving DecidableEq, Repr

/-- Which branch the chain takes for a read of `st.sectors` sectors with outcome `ok`. -/
def branch (ok : Bool) (st : PlayState) : Branch :=
  if ok then Branch.advance
  else if st.sectors > 16 then Branch.halve
  else if st.retry_count < MAX_RETRIES then Branch.retry
  else if st.skip_count < MAX_SKIPS then Branch.skip
  else Branch.giveUp

/-- The result of the `if`/`else if` chain after a read. -/
inductive Recovery where
  /-- The loop goes on with this state. -/
  | next (st : PlayState)
  /-- The last branch: report the error and `break`. -/
  | giveUp
  deriving DecidableEq, Repr

/-- The `if (ret == DRIVER_OP_SUCCESS) ... else if ... else ...` chain that
follows a read of `st.sectors` sectors at `st.currlsn`. -/
def recover (endlsn : Int) (ok : Bool) (st : PlayState) : Recovery :=
  if ok then
    Recovery.next { st with currlsn := st.currlsn + st.sectors, retry_count := 0, skip_count := 0 }
  else if st.sectors > 16 then
    Recovery.next { st with sectors := cdiv st.sectors 2 }
  else if st.retry_count < MAX_RETRIES then
    Recovery.next { st with retry_count := st.retry_count + 1 }
  else if st.skip_count < MAX_SKIPS then
    Recovery.next { st with currlsn := MIN (st.currlsn + 75) (endlsn + 1),
                            skip_count := st.skip_count + 1 }
  else Recovery.giveUp

/-- The loop body from the clamp of the batch to the end of the recovery chain
(the part after the seek block), for a read with outcome `ok` and no host
command in between: `none` when the body leaves the loop without reading
(`sectors < 1`), else the result of the chain. -/
def iteration (endlsn : Int) (ok : Bool) (st : PlayState) : Option Recovery :=
  let st1 := clampSectors endlsn st
  if st1.sectors < 1 then none else some (recover endlsn ok st1)

/-- The result of running the read loop on a finite supply of ticks. -/
structure Run where
  events : List Event
  /-- The branch taken after each completed read, oldest first. -/
  trail : List Branch
  final : PlayState
  /-- Is `none` when the ticks ran out with a read outstanding. -/
  exit : Option Exit
  deriving DecidableEq, Repr

/-- Put the events and branches of an earlier part of the loop in front of a run. -/
def Run.after (evs : List Event) (brs : List Branch) (r : Run) : Run :=
  { r with events := evs ++ r.events, trail := brs ++ r.trail }

/-- The loop `while (playing) { ... }` of `cdaudio_play`, one tick per read. -/
def readLoop (startlsn endlsn : Int) : List Tick → PlayState → Run
  | [], st =>
    if !st.playing then { events := [], trail := [], final := st, exit := some Exit.stopped }
    else
      let sk := applySeek startlsn st
      let st1 := clampSectors endlsn sk.2
      if st1.sectors < 1 then
        { events := sk.1, trail := [], final := st1, exit := some Exit.exhausted }
      else
        { events := sk.1 ++ [Event.read st1.currlsn st1.sectors], trail := [], final := st1,
          exit := none }
  | t :: ts, st =>
    if !st.playing then { events := [], trail := [], final := st, exit := some Exit.stopped }
    else
      let sk := applySeek startlsn st
      let st1 := clampSectors endlsn sk.2
      if st1.sectors < 1 then
        { events := sk.1, trail := [], final := st1, exit := some Exit.exhausted }
      else
        let io := Event.read st1.currlsn st1.sectors ::
          (if t.ok then [Event.write (2352 * st1.sectors)] else [])
        let sv := serveAll t.cmds st1
        match recover endlsn t.ok sv.2 with
        | Recovery.giveUp =>
          { events := sk.1 ++ io ++ sv.1 ++ [Event.error "Error reading audio CD."],
            trail := [Branch.giveUp], final := sv.2, exit := some Exit.fatal }
        | Recovery.next st2 =>
          (readLoop startlsn endlsn ts st2).after (sk.1 ++ io ++ sv.1) [branch t.ok sv.2]

/-- One pass through the body of the read loop for one tick: the state at the next
test of the loop condition, or `none` when the loop is left (the condition is
false, the clamped batch is empty, or the recovery gives up). -/
def loopStep (startlsn endlsn : Int) (t : Tick) (st : PlayState) : Option PlayState :=
  if !st.playing then none
  else
    let st1 := clampSectors endlsn (applySeek startlsn st).2
    if st1.sectors < 1 then none
    else
      match recover endlsn t.ok (serveAll t.cmds st1).2 with
      | Recovery.giveUp => none
      | Recovery.next st2 => some st2

/-! ## The session: drive handle, Track Table, timer -/

/-- Source: `trackinfo_t`. -/
structure trackinfo_t where
  performer : CStr
  name : CStr
  genre : CStr
  startlsn : Int
  endlsn : Int
  deriving DecidableEq, Repr

/-- The drive handle `cdrom_drive_t *`, with the one field the plugin writes. -/
structure Drive where
  device : CStr
  bigendianp : Int
  deriving DecidableEq, Repr

/-- The file-scope statics of the plugin.  `trackinfo` is the array of
`lasttrackno + 1` descriptors (index 0 is the whole disc), `none` for `NULL`;
`monitor_source` is the timer handle, 0 when no timer is armed. -/
structure Session where
  seek_time : Int
  playing : Bool
  firsttrackno : Int
  lasttrackno : Int
  n_audio_tracks : Int
  pcdrom_drive : Option Drive
  trackinfo : Option (List trackinfo_t)
  monitor_source : Nat
  deriving DecidableEq, Repr

/-- The values `cdio_get_discmode` may return, as far as the plugin tells them apart. -/
inductive DiscMode where
  | CD_DA
  | CD_MIXED
  | NO_INFO
  | ERROR
  | other
  deriving DecidableEq, Repr

/-- The configuration keys the plugin reads. -/
structure Config where
  output_buffer_size : Int
  disc_speed : Int
  device : CStr
  use_cdtext : Bool
  use_cddb : Bool
  deriving DecidableEq, Repr

/-- The three disc-text fields the plugin reads for one track index; `none` for `NULL`. -/
structure CdText where
  performer : Option CStr
  title : Option CStr
  genre : Option CStr
  deriving DecidableEq, Repr

/-- What libcddb answers. -/
structure Cddb where
  /-- Is false when `cddb_new` returns `NULL`. -/
  conn_ok : Bool
  /-- The result of `cddb_query`, -1 for an error. -/
  found : Int
  /-- The text of `cddb_error_str (cddb_errno (conn))`, `none` when the errno is `CDDB_ERR_OK`. -/
  query_error : Option String
  /-- The same after `cddb_read`. -/
  read_error : Option String
  disc_artist : Option CStr
  disc_title : Option CStr
  disc_genre : Option CStr
  /-- The result of `cddb_track_get_artist (cddb_disc_get_track (disc, i))`. -/
  track_artist : Int → Option CStr
  /-- The result of `cddb_track_get_title (cddb_disc_get_track (disc, i))`. -/
  track_title : Int → Option CStr

/-- The answers of the collaborators during one call into the plugin. -/
structure Env where
  config : Config
  /-- The compile-time test `LIBCDIO_VERSION_NUM >= 90`. -/
  libcdio_ge_90 : Bool
  /-- The result of `cdio_get_devices_with_cap`, `none` for `NULL`. -/
  devices : Option (List CStr)
  /-- The result of `cdda_identify`, `none` for `NULL`. -/
  identify : CStr → Option Drive
  discmode : DiscMode
  media_changed : Bool
  /-- Is true when `cdda_open` returns 0. -/
  cdda_open_ok : Bool
  /-- Is true when `cdda_speed_set` returns `DRIVER_OP_SUCCESS`. -/
  speed_set_ok : Bool
  first_track_num : Int
  last_track_num : Int
  track_firstsector : Int → Int
  track_lastsector : Int → Int
  track_audiop : Int → Bool
  /-- With libcdio 0.90 or later: the result of `cdio_get_cdtext (p_cdio)` and
  what `cdtext_get` gives for each track index. -/
  cdtext : Option (Int → CdText)
  /-- Before libcdio 0.90: the result of `cdio_get_cdtext (p_cdio, track)`. -/
  cdtext_of_track : Int → Option CdText
  cddb : Cddb
  /-- The contents of memory that `g_new` returns and nobody has written yet. -/
  garbage : trackinfo_t
  /-- The result of `p->output->open_audio`. -/
  open_audio_ok : Bool

/-- The libcdio constant `CDIO_INVALID_TRACK`. -/
def CDIO_INVALID_TRACK : Int := 255

/-- The libcdio constant `CDIO_INVALID_LSN`. -/
def CDIO_INVALID_LSN : Int := -45301

/-- The call `g_strlcpy (dest, src ? src : "", DEF_STRING_LEN)`. -/
def g_strlcpy (src : Option CStr) : CStr := (src.getD []).take (DEF_STRING_LEN - 1)

/-- Source: `cdaudio_set_strinfo`. -/
def cdaudio_set_strinfo (t : trackinfo_t) (performer name genre : Option CStr) : trackinfo_t :=
  { t with performer := g_strlcpy performer, name := g_strlcpy name, genre := g_strlcpy genre }

/-- Source: `cdaudio_set_fullinfo`. -/
def cdaudio_set_fullinfo (t : trackinfo_t) (startlsn endlsn : Int)
    (performer name genre : Option CStr) : trackinfo_t :=
  cdaudio_set_strinfo { t with startlsn := startlsn, endlsn := endlsn } performer name genre

/-- The array element `trackinfo[trackno]`. -/
def entry (env : Env) (tab : List trackinfo_t) (trackno : Int) : trackinfo_t :=
  tab.getD trackno.toNat env.garbage

/-- The track numbers a loop `for (trackno = first; trackno <= last; trackno++)` visits. -/
def trackRange (first last : Int) : List Int :=
  (List.range (last + 1 - first).toNat).map (fun i => first + (i : Int))

/-- Source: `trigger_monitor`.  The handle that `g_timeout_add_seconds` returns is
some nonzero number, 1 here. -/
def trigger_monitor (s : Session) : List Event × Session :=
  if s.monitor_source = 0 then ([Event.timer_add], { s with monitor_source := 1 })
  else ([], s)

/-- Source: `open_cd`. -/
def open_cd (env : Env) (s : Session) : List Event × Session :=
  if s.pcdrom_drive.isSome then ([], s)
  else
    match env.config.device with
    | _ :: _ =>
      match env.identify env.config.device with
      | some d => ([Event.drive_identify env.config.device], { s with pcdrom_drive := some d })
      | none =>
        ([Event.drive_identify env.config.device,
          Event.error ("Failed to open CD device " ++ String.mk env.config.device ++ ".")], s)
    | [] =>
      match env.devices with
      | some (dev :: _) =>
        match env.identify dev with
        | some d => ([Event.drive_identify dev], { s with pcdrom_drive := some d })
        | none =>
          ([Event.drive_identify dev,
            Event.error ("Failed to open CD device " ++ String.mk dev ++ ".")], s)
      | _ => ([Event.error "No audio capable CD drive found."], s)

/-- The first loop of `scan_cd`: fill in the sector bounds of the tracks still
to visit and count the audio tracks.  The first component is the track whose
bounds are invalid, if the loop stops there. -/
def scanBounds (env : Env) : List Int → List trackinfo_t → Int → Option Int × List trackinfo_t × Int
  | [], tab, n => (none, tab, n)
  | t :: ts, tab, n =>
    let d := cdaudio_set_fullinfo (entry env tab t) (env.track_firstsector t)
      (env.track_lastsector t) (some []) (some []) (some [])
    let tab1 := tab.set t.toNat d
    if d.startlsn = CDIO_INVALID_LSN ∨ d.endlsn = CDIO_INVALID_LSN then (some t, tab1, n)
    else scanBounds env ts tab1 (if env.track_audiop t then n + 1 else n)

/-- The value of `pcdtext` when the second loop of `scan_cd` tests it for `trackno`. -/
def trackCdText (env : Env) (trackno : Int) : Option CdText :=
  if env.config.use_cdtext then
    if env.libcdio_ge_90 then env.cdtext.map (fun f => f trackno)
    else
      match env.cdtext_of_track trackno with
      | none => none
      | some c => if c.performer.isNone then none else some c
  else none

/-- The disc-text block of `scan_cd` for `trackinfo[0]`. -/
def discCdText (env : Env) (tab : List trackinfo_t) : List trackinfo_t :=
  if env.config.use_cdtext then
    if env.libcdio_ge_90 then
      match env.cdtext with
      | none => tab
      | some f =>
        tab.set 0 (cdaudio_set_strinfo (entry env tab 0) (f 0).performer (f 0).title (f 0).genre)
    else
      match env.cdtext_of_track 0 with
      | none => tab
      | some c =>
        if c.title.isNone then tab
        else tab.set 0 (cdaudio_set_strinfo (entry env tab 0) c.performer c.title c.genre)
  else tab

/-- The second loop of `scan_cd`: per-track disc-text or the placeholder
"Track N".  The flag is `cdtext_was_available`. -/
def scanCdText (env : Env) : List Int → List trackinfo_t → Bool → List trackinfo_t × Bool
  | [], tab, avail => (tab, avail)
  | t :: ts, tab, avail =>
    match trackCdText env t with
    | some c =>
      scanCdText env ts
        (tab.set t.toNat (cdaudio_set_strinfo (entry env tab t) c.performer c.title c.genre)) true
    | none =>
      let d := cdaudio_set_strinfo (entry env tab t) (some []) (some []) (some [])
      scanCdText env ts
        (tab.set t.toNat { d with name := ("Track " ++ toString t).toList.take (DEF_STRING_LEN - 1) })
        avail

/-- The loop of `scan_cd` that copies the CDDB records into the table. -/
def scanCddbTracks (env : Env) : List Int → List trackinfo_t → List trackinfo_t
  | [], tab => tab
  | t :: ts, tab =>
    scanCddbTracks env ts
      (tab.set t.toNat (cdaudio_set_strinfo (entry env tab t) (env.cddb.track_artist (t - 1))
        (env.cddb.track_title (t - 1)) env.cddb.disc_genre))

/-- The CDDB block of `scan_cd` (entered when `cdtext_was_available` is false). -/
def scanCddb (env : Env) (first last : Int) (tab : List trackinfo_t) :
    List Event × List trackinfo_t :=
  if env.config.use_cddb then
    if !env.cddb.conn_ok then ([Event.error "Failed to create the cddb connection."], tab)
    else if env.cddb.found = -1 then
      match env.cddb.query_error with
      | none => ([Event.cddb_query, Event.error "Failed to query the CDDB server"], tab)
      | some e => ([Event.cddb_query, Event.error ("Failed to query the CDDB server: " ++ e)], tab)
    else if env.cddb.found = 0 then ([Event.cddb_query], tab)
    else
      match env.cddb.read_error with
      | some e =>
        ([Event.cddb_query, Event.cddb_read, Event.error ("Failed to read the cddb info: " ++ e)],
         tab)
      | none =>
        let tab0 := tab.set 0 (cdaudio_set_strinfo (entry env tab 0) env.cddb.disc_artist
          env.cddb.disc_title env.cddb.disc_genre)
        ([Event.cddb_query, Event.cddb_read], scanCddbTracks env (trackRange first last) tab0)
  else ([], tab)

/-- Source: `scan_cd`.  The label `ERR` frees the table and leaves `trackinfo = NULL`. -/
def scan_cd (env : Env) (s : Session) : List Event × Session :=
  match s.pcdrom_drive with
  | none => ([], s)
  | some drive =>
    if s.trackinfo.isSome then ([], s)
    else
      let s := { s with pcdrom_drive := some { drive with bigendianp := 0 } }
      if !env.cdda_open_ok then
        ([Event.scan, Event.error "Failed to finish initializing opened CD drive."], s)
      else
        let speed := CLAMP env.config.disc_speed MIN_DISC_SPEED MAX_DISC_SPEED
        let ev1 := [Event.scan, Event.speed_set speed] ++
          (if env.speed_set_ok then [] else [Event.warn "Cannot set drive speed.\n"])
        let s := { s with firsttrackno := env.first_track_num, lasttrackno := env.last_track_num }
        if s.firsttrackno = CDIO_INVALID_TRACK ∨ s.lasttrackno = CDIO_INVALID_TRACK then
          (ev1 ++ [Event.error "Failed to retrieve first/last track number."], s)
        else
          let tab := List.replicate (s.lasttrackno + 1).toNat env.garbage
          let tab := tab.set 0 (cdaudio_set_fullinfo (entry env tab 0) (env.track_firstsector 0)
            (env.track_lastsector s.lasttrackno) (some []) (some []) (some []))
          match scanBounds env (trackRange s.firsttrackno s.lasttrackno) tab 0 with
          | (some bad, _, n) =>
            (ev1 ++ [Event.error ("Cannot read start/end LSN for track " ++ toString bad ++ ".")],
             { s with n_audio_tracks := n })
          | (none, tab, n) =>
            let s := { s with n_audio_tracks := n }
            let r := scanCdText env (trackRange s.firsttrackno s.lasttrackno) (discCdText env tab)
              false
            if r.2 then (ev1, { s with trackinfo := some r.1 })
            else
              let c := scanCddb env s.firsttrackno s.lasttrackno r.1
              (ev1 ++ c.1, { s with trackinfo := some c.2 })

/-- Source: `refresh_trackinfo` (the branch compiled when `_WIN32` is not defined). -/
def refresh_trackinfo (env : Env) (warning : Bool) (s : Session) : List Event × Session :=
  let tm := trigger_monitor s
  let op := if tm.2.pcdrom_drive.isNone then open_cd env tm.2 else ([], tm.2)
  let s1 := op.2
  match s1.pcdrom_drive with
  | none => (tm.1 ++ op.1, s1)
  | some _ =>
    if env.discmode ≠ DiscMode.CD_DA ∧ env.discmode ≠ DiscMode.CD_MIXED then
      let w := if warning then
          (if env.discmode = DiscMode.NO_INFO then [Event.error "Drive is empty."]
           else [Event.error "Unsupported disk type."])
        else []
      (tm.1 ++ op.1 ++ [Event.get_discmode] ++ w ++ [Event.drive_close],
       { s1 with pcdrom_drive := none, trackinfo := none })
    else if s1.trackinfo.isNone then
      let sc := scan_cd env { s1 with trackinfo := none }
      (tm.1 ++ op.1 ++ [Event.get_discmode] ++ sc.1, sc.2)
    else if env.media_changed then
      let sc := scan_cd env { s1 with trackinfo := none }
      (tm.1 ++ op.1 ++ [Event.get_discmode, Event.get_media_changed] ++ sc.1, sc.2)
    else (tm.1 ++ op.1 ++ [Event.get_discmode, Event.get_media_changed], s1)

/-- Source: `monitor`, the timer callback.  The Boolean is its return value:
true keeps the timer armed. -/
def monitor (env : Env) (s : Session) : List Event × Session × Bool :=
  if s.playing then ([], s, true)
  else
    let r := if s.trackinfo.isSome then refresh_trackinfo env false s else ([], s)
    if r.2.trackinfo.isSome then (r.1, r.2, true)
    else (r.1 ++ [Event.purge_all_playlists], { r.2 with monitor_source := 0 }, false)

/-- Source: `cdaudio_mseek`. -/
def cdaudio_mseek (time : Int) (s : Session) : List Event × Session :=
  ([Event.abort_write], { s with seek_time := time })

/-- Source: `cdaudio_stop`. -/
def cdaudio_stop (s : Session) : List Event × Session :=
  ([Event.abort_write], { s with playing := false })

/-! ## Playback -/

/-- The end sector `cdaudio_play` uses for a track with bounds `startlsn`,
`endlsn` and the argument `stop`. -/
def playEndLsn (startlsn endlsn stop : Int) : Int :=
  if stop ≥ 0 then MIN endlsn (startlsn + cdiv (wrap32 (stop * 75)) 1000) else endlsn

/-- The initial batch size of `cdaudio_play`, in sectors. -/
def batchSize (cfg : Config) : Int :=
  let speed := CLAMP cfg.disc_speed MIN_DISC_SPEED MAX_DISC_SPEED
  cdiv (CLAMP (cdiv cfg.output_buffer_size 2) 50 250 * speed * 75) 1000

/-- The result of `cdaudio_play`: `ret` is its return value, `none` when the
ticks ran out with a read outstanding. -/
structure Played where
  events : List Event
  session : Session
  ret : Option Bool
  deriving DecidableEq, Repr

/-- Source: `cdaudio_play` from the computation of the sector range on, for a
request whose preconditions hold. -/
def playTrack (env : Env) (s : Session) (tab : List trackinfo_t) (trackno start stop : Int)
    (pause : Bool) (ticks : List Tick) : Played :=
  let startlsn := (entry env tab trackno).startlsn
  let endlsn := playEndLsn startlsn (entry env tab trackno).endlsn stop
  let ev := (if pause then [Event.pause true] else []) ++
    [Event.set_params 1411200 44100 2, Event.set_pb_ready]
  let st : PlayState :=
    { currlsn := startlsn, sectors := batchSize env.config, retry_count := 0, skip_count := 0,
      seek_time := if start > 0 then start else -1, playing := true }
  let r := readLoop startlsn endlsn ticks st
  match r.exit with
  | none =>
    { events := ev ++ r.events,
      session := { s with seek_time := r.final.seek_time, playing := r.final.playing },
      ret := none }
  | some _ =>
    { events := ev ++ r.events,
      session := { s with seek_time := r.final.seek_time, playing := false },
      ret := some true }

/-- Source: `cdaudio_play`. -/
def cdaudio_play (env : Env) (s : Session) (name : CStr) (start stop : Int) (pause : Bool)
    (ticks : List Tick) : Played :=
  let r := if s.trackinfo.isNone then refresh_trackinfo env true s else ([], s)
  match r.2.trackinfo with
  | none => { events := r.1, session := r.2, ret := some false }
  | some tab =>
    let s1 := r.2
    let trackno := find_trackno_from_filename name
    if trackno < 0 then
      { events := r.1 ++ [Event.error ("Invalid URI " ++ String.mk name ++ ".")], session := s1,
        ret := some false }
    else if trackno < s1.firsttrackno ∨ trackno > s1.lasttrackno then
      { events := r.1 ++ [Event.error ("Track " ++ toString trackno ++ " not found.")],
        session := s1, ret := some false }
    else if !env.track_audiop trackno then
      { events := r.1 ++ [Event.error ("Track " ++ toString trackno ++ " is a data track.")],
        session := s1, ret := some false }
    else if !env.open_audio_ok then
      { events := r.1 ++ [Event.open_audio, Event.error "Failed to open audio output."],
        session := s1, ret := some false }
    else
      (fun p : Played => { p with events := r.1 ++ [Event.open_audio] ++ p.events })
        (playTrack env s1 tab trackno start stop pause ticks)

/-! ## Statements in the words of the specification, and test data -/

/-- Following the claim's words: the update of (current sector, batch size,
retry count, skip count) by one iteration, computed from the batch size of the
state as it is. -/
def claimedIteration (endlsn : Int) (ok : Bool) (st : PlayState) : Recovery :=
  if ok then
    Recovery.next { st with currlsn := st.currlsn + st.sectors, retry_count := 0, skip_count := 0 }
  else if st.sectors > 16 then Recovery.next { st with sectors := st.sectors / 2 }
  else if st.retry_count < 10 then Recovery.next { st with retry_count := st.retry_count + 1 }
  else if st.skip_count < 10 then
    Recovery.next { st with currlsn := min (st.currlsn + 75) (endlsn + 1),
                            skip_count := st.skip_count + 1 }
  else Recovery.giveUp

/-- A failed read during which the host sends no command. -/
def failTick : Tick := ⟨false, []⟩

/-- Following the claim's words: the run that makes `k` halvings, then 10 retries at
the unchanged position `cur` with the reduced size, then 10 skips of 75 sectors
each, and reports the fatal error on the next failure. -/
def expectedFailRun (cur e b : Int) (k : Nat) : Run :=
  { events := (List.range k).map (fun i : Nat => Event.read cur (b / 2 ^ i)) ++
      List.replicate 10 (Event.read cur (b / 2 ^ k)) ++
      (List.range 10).map (fun j : Nat => Event.read (cur + 75 * (j : Int)) (b / 2 ^ k)) ++
      [Event.read (cur + 750) (min (b / 2 ^ k) (e + 1 - (cur + 750))),
       Event.error "Error reading audio CD."],
    trail := List.replicate k Branch.halve ++ List.replicate 10 Branch.retry ++
      List.replicate 10 Branch.skip ++ [Branch.giveUp],
    final := ⟨cur + 750, min (b / 2 ^ k) (e + 1 - (cur + 750)), 10, 10, -1, true⟩,
    exit := some Exit.fatal }

/-- The statics as the C program initialises them. -/
def initialSession : Session :=
  { seek_time := 0, playing := false, firsttrackno := -1, lasttrackno := -1, n_audio_tracks := 0,
    pcdrom_drive := none, trackinfo := none, monitor_source := 0 }

/-- A drive with an audio disc of three tracks of 1000 sectors each: track 2
spans the sectors 1000 to 1999.  Disc-text and CDDB are switched off. -/
def exampleEnv : Env :=
  { config := { output_buffer_size := 500, disc_speed := 2, device := [], use_cdtext := false,
                use_cddb := false },
    libcdio_ge_90 := true,
    devices := some ["/dev/sr0".toList],
    identify := fun dev => some { device := dev, bigendianp := -1 },
    discmode := DiscMode.CD_DA,
    media_changed := false,
    cdda_open_ok := true,
    speed_set_ok := true,
    first_track_num := 1,
    last_track_num := 3,
    track_firstsector := fun t => if t ≤ 1 then 0 else (t - 1) * 1000,
    track_lastsector := fun t => t * 1000 - 1,
    track_audiop := fun _ => true,
    cdtext := none,
    cdtext_of_track := fun _ => none,
    cddb := { conn_ok := true, found := 0, query_error := none, read_error := none,
              disc_artist := none, disc_title := none, disc_genre := none,
              track_artist := fun _ => none, track_title := fun _ => none },
    garbage := { performer := [], name := [], genre := [], startlsn := 0, endlsn := 0 },
    open_audio_ok := true }

/-- A successful read during which the host sends no command. -/
def okTick : Tick := ⟨true, []⟩

/-- The number of disc scans in a list of events. -/
def scanCount (evs : List Event) : Nat := evs.count Event.scan

/-- The example drive with a disc whose table of contents cannot be read:
`cdda_open` fails. -/
def badTocEnv : Env := { exampleEnv with cdda_open_ok := false }

/-- The example drive after the disc was taken out. -/
def noDiscEnv : Env := { exampleEnv with discmode := DiscMode.NO_INFO }

/-- The remote lookup gives a record to copy: the lookup is switched on, the
connection exists, the query reports neither an error (-1) nor zero matches, and
reading the record succeeds. -/
def lookupUsable (env : Env) : Bool :=
  env.config.use_cddb && env.cddb.conn_ok && decide (env.cddb.found ≠ -1) &&
    decide (env.cddb.found ≠ 0) && env.cddb.read_error.isNone

/-- The example disc with the remote lookup switched on and answering with two
matches. -/
def twoMatchEnv : Env :=
  { exampleEnv with
    config := { exampleEnv.config with use_cddb := true },
    cddb := { conn_ok := true, found := 2, query_error := none, read_error := none,
              disc_artist := some "Band".toList, disc_title := some "Album".toList,
              disc_genre := some "Rock".toList,
              track_artist := fun _ => some "Band".toList,
              track_title := fun i => some ("Song " ++ toString (i + 1)).toList } }

/-- The placeholder title `snprintf (name, DEF_STRING_LEN, "Track %d", trackno)` writes. -/
def placeholderTitle (trackno : Int) : CStr :=
  ("Track " ++ toString trackno).toList.take (DEF_STRING_LEN - 1)

/-- The flag `cdtext_was_available` after the second loop of `scan_cd`: some track
in the range had disc-text. -/
def cdtextFound (env : Env) : Bool :=
  (trackRange env.first_track_num env.last_track_num).any
    (fun t => (trackCdText env t).isSome)

/-- The title of track `n` after the disc-text loop: the disc-text title (empty when
the record has none), or the placeholder when the track has no disc-text. -/
def textTitle (env : Env) (n : Int) : CStr :=
  match trackCdText env n with
  | some c => g_strlcpy c.title
  | none => placeholderTitle n

/-- The title of track `n` after a successful scan. -/
def scannedTitle (env : Env) (n : Int) : CStr :=
  if cdtextFound env then textTitle env n
  else if lookupUsable env then g_strlcpy (env.cddb.track_title (n - 1))
  else placeholderTitle n

/-- The example disc with disc-text that names the performer of every track and
no title. -/
def untitledTextEnv : Env :=
  { exampleEnv with
    config := { exampleEnv.config with use_cdtext := true },
    cdtext := some (fun _ => { performer := some "Band".toList, title := none, genre := none }) }

/-- The example disc with a remote record that has no track titles. -/
def untitledLookupEnv : Env :=
  { twoMatchEnv with
    cddb := { twoMatchEnv.cddb with found := 1, track_title := fun _ => none } }

/-- The measure of the claim for a state of the loop: sectors remaining in the
range, batch size, and 10 minus the retry count. -/
def loopMeasure (endlsn : Int) (st : PlayState) : Int × Int × Int :=
  (endlsn + 1 - st.currlsn, st.sectors, 10 - st.retry_count)

/-- The strict lexicographic order on triples of integers. -/
def lexLess (a b : Int × Int × Int) : Prop :=
  a.1 < b.1 ∨ (a.1 = b.1 ∧ (a.2.1 < b.2.1 ∨ (a.2.1 = b.2.1 ∧ a.2.2 < b.2.2)))

/-- The ticks carry no command that ends or redirects the loop: the host only
pauses and resumes. -/
def onlyPause (ticks : List Tick) : Prop :=
  ∀ tk ∈ ticks, ∀ c ∈ tk.cmds, ∃ f, c = Cmd.pause f

/-- The read loop as `cdaudio_play` enters it for the range `startlsn .. endlsn`:
position at the start sector, batch size from the configuration, both counters
0, and the start offset pending as a seek when it is positive. -/
def loopFrom (cfg : Config) (startlsn endlsn start : Int) (ticks : List Tick) : Run :=
  readLoop startlsn endlsn ticks
    { currlsn := startlsn, sectors := batchSize cfg, retry_count := 0, skip_count := 0,
      seek_time := if start > 0 then start else -1, playing := true }

/-- The names the track parser accepts, in words: "cdda://?" followed by optional
white space, an optional sign, and at least one decimal digit; anything may
follow. -/
def trackForm (name : CStr) : Prop :=
  ∃ (ws sign : CStr) (d : Char) (rest : CStr),
    name = "cdda://?".toList ++ ws ++ sign ++ d :: rest ∧
    (∀ c ∈ ws, isspace c = true) ∧ (sign = [] ∨ sign = ['+'] ∨ sign = ['-']) ∧
    isdigit d = true

/-- The number a string of decimal digits denotes. -/
def decimalValue (ds : CStr) : Nat :=
  ds.foldl (fun acc c => acc * 10 + (c.toNat - 48)) 0

/-! ## Theorems -/

theorem MIN_eq_min (a b : Int) : MIN a b = min a b := by
  unfold MIN
  split <;> omega

theorem cdiv_of_nonneg (a b : Int) (ha : 0 ≤ a) (hb : 0 ≤ b) : cdiv a b = a / b :=
  Int.tdiv_eq_ediv ha hb

/-- The recovery chain is the update the specification describes, for a read of
`st.sectors` sectors. -/
theorem recover_eq_claimed (endlsn : Int) (ok : Bool) (st : PlayState) :
    recover endlsn ok st = claimedIteration endlsn ok st := by
  unfold recover claimedIteration MAX_RETRIES MAX_SKIPS
  rw [MIN_eq_min]
  by_cases h : st.sectors > 16
  · rw [cdiv_of_nonneg st.sectors 2 (by omega) (by decide)]
  · simp [h]

/-- C1, counterexample.  With 10 sectors left (`endlsn = 9`, position 0) and a batch
size of 100 a failed read leaves the batch size 10 and counts a retry, where the
claim has the batch halved to 50; a successful read moves the position by 10 and
leaves the batch size 10, where the claim has position 100 and batch size 100; at
position 10 the iteration reads nothing at all. -/
theorem iteration_claimed_counterexample :
    iteration 9 false ⟨0, 100, 0, 0, -1, true⟩ = some (Recovery.next ⟨0, 10, 1, 0, -1, true⟩) ∧
    claimedIteration 9 false ⟨0, 100, 0, 0, -1, true⟩ = Recovery.next ⟨0, 50, 0, 0, -1, true⟩ ∧
    iteration 9 true ⟨0, 100, 0, 0, -1, true⟩ = some (Recovery.next ⟨10, 10, 0, 0, -1, true⟩) ∧
    claimedIteration 9 true ⟨0, 100, 0, 0, -1, true⟩ = Recovery.next ⟨100, 100, 0, 0, -1, true⟩ ∧
    iteration 9 false ⟨10, 100, 0, 0, -1, true⟩ = none := by
  decide

/-- C1, amended.  One iteration first clamps the batch size to
`min batch (endlsn + 1 - position)` and leaves the loop without a read when that
is below 1; otherwise it updates (current sector, batch size, retry count, skip
count) exactly as the claim says, with the clamped batch size in the place of the
batch size: success advances the position by it and resets both counters; a
failure halves it when it exceeds 16, else counts a retry below 10, else skips to
`min (position + 75) (endlsn + 1)` and counts a skip below 10, else gives up. -/
theorem iteration_clamped (endlsn : Int) (ok : Bool) (st : PlayState) :
    iteration endlsn ok st =
      if min st.sectors (endlsn + 1 - st.currlsn) < 1 then none
      else some (claimedIteration endlsn ok
        { st with sectors := min st.sectors (endlsn + 1 - st.currlsn) }) := by
  unfold iteration clampSectors
  simp only [MIN_eq_min]
  split
  · rfl
  · rw [recover_eq_claimed]

theorem Run.after_after (e0 e1 : List Event) (t0 t1 : List Branch) (r : Run) :
    (r.after e1 t1).after e0 t0 = r.after (e0 ++ e1) (t0 ++ t1) := by
  simp [Run.after, List.append_assoc]

theorem Run.after_nil (r : Run) : r.after [] [] = r := by
  simp [Run.after]

theorem readLoop_fail_halve (s e cur b r k sk : Int) (ts : List Tick) (hsk : sk < 0)
    (hb : 16 < b) (hrem : b ≤ e + 1 - cur) :
    readLoop s e (failTick :: ts) ⟨cur, b, r, k, sk, true⟩ =
      (readLoop s e ts ⟨cur, b / 2, r, k, sk, true⟩).after [Event.read cur b] [Branch.halve] := by
  have h1 : ¬ (sk ≥ 0) := by omega
  have h2 : MIN b (e + 1 - cur) = b := by rw [MIN_eq_min]; omega
  have h3 : ¬ (b < 1) := by omega
  have h4 : cdiv b 2 = b / 2 := cdiv_of_nonneg b 2 (by omega) (by decide)
  simp [readLoop, applySeek, clampSectors, failTick, serveAll, recover, branch, h1, h2, h3, hb, h4]

theorem readLoop_fail_retry (s e cur b r k sk : Int) (ts : List Tick) (hsk : sk < 0)
    (hb1 : 1 ≤ b) (hb : b ≤ 16) (hrem : b ≤ e + 1 - cur) (hr : r < 10) :
    readLoop s e (failTick :: ts) ⟨cur, b, r, k, sk, true⟩ =
      (readLoop s e ts ⟨cur, b, r + 1, k, sk, true⟩).after [Event.read cur b] [Branch.retry] := by
  have h1 : ¬ (sk ≥ 0) := by omega
  have h2 : MIN b (e + 1 - cur) = b := by rw [MIN_eq_min]; omega
  have h3 : ¬ (b < 1) := by omega
  have h5 : ¬ (16 < b) := by omega
  simp [readLoop, applySeek, clampSectors, failTick, serveAll, recover, branch, h1, h2, h3, h5, hr,
    MAX_RETRIES]

theorem readLoop_fail_skip (s e cur b r k sk : Int) (ts : List Tick) (hsk : sk < 0)
    (hb1 : 1 ≤ b) (hb : b ≤ 16) (hrem : cur + 75 ≤ e + 1) (hr : 10 ≤ r) (hk : k < 10) :
    readLoop s e (failTick :: ts) ⟨cur, b, r, k, sk, true⟩ =
      (readLoop s e ts ⟨cur + 75, b, r, k + 1, sk, true⟩).after [Event.read cur b]
        [Branch.skip] := by
  have h1 : ¬ (sk ≥ 0) := by omega
  have h2 : MIN b (e + 1 - cur) = b := by rw [MIN_eq_min]; omega
  have h3 : ¬ (b < 1) := by omega
  have h5 : ¬ (16 < b) := by omega
  have h6 : ¬ (r < 10) := by omega
  have h7 : MIN (cur + 75) (e + 1) = cur + 75 := by rw [MIN_eq_min]; omega
  simp [readLoop, applySeek, clampSectors, failTick, serveAll, recover, branch, h1, h2, h3, h5, h6,
    h7, hk, MAX_RETRIES, MAX_SKIPS]

theorem readLoop_fail_giveUp (s e cur b r k sk : Int) (ts : List Tick) (hsk : sk < 0)
    (hb1 : 1 ≤ b) (hb : b ≤ 16) (hrem : 1 ≤ e + 1 - cur) (hr : 10 ≤ r) (hk : 10 ≤ k) :
    readLoop s e (failTick :: ts) ⟨cur, b, r, k, sk, true⟩ =
      { events := [Event.read cur (min b (e + 1 - cur)), Event.error "Error reading audio CD."],
        trail := [Branch.giveUp],
        final := ⟨cur, min b (e + 1 - cur), r, k, sk, true⟩,
        exit := some Exit.fatal } := by
  have h1 : ¬ (sk ≥ 0) := by omega
  have h3 : ¬ (min b (e + 1 - cur) < 1) := by omega
  have h5 : ¬ (16 < min b (e + 1 - cur)) := by omega
  have h6 : ¬ (r < 10) := by omega
  have h7 : ¬ (k < 10) := by omega
  simp [readLoop, applySeek, clampSectors, failTick, serveAll, recover, h1, MIN_eq_min, h3, h5,
    h6, h7, MAX_RETRIES, MAX_SKIPS]

theorem ediv_two_pow_succ (b : Int) (hb : 0 ≤ b) (j : Nat) : b / 2 / 2 ^ j = b / 2 ^ (j + 1) := by
  obtain ⟨m, rfl⟩ := Int.eq_ofNat_of_zero_le hb
  norm_cast
  rw [Nat.div_div_eq_div_mul, pow_succ, mul_comm]

theorem halve_phase (s e cur : Int) (ts : List Tick) :
    ∀ (k : Nat) (b : Int), (∀ j, j < k → 16 < b / 2 ^ j) → b ≤ e + 1 - cur →
      readLoop s e (List.replicate k failTick ++ ts) ⟨cur, b, 0, 0, -1, true⟩ =
        (readLoop s e ts ⟨cur, b / 2 ^ k, 0, 0, -1, true⟩).after
          ((List.range k).map (fun i : Nat => Event.read cur (b / 2 ^ i)))
          (List.replicate k Branch.halve) := by
  intro k
  induction k with
  | zero =>
    intro b _ _
    simp [Run.after_nil]
  | succ k ih =>
    intro b h hrem
    have h0 : 16 < b := by simpa using h 0 (Nat.succ_pos k)
    have hstep : ∀ j : Nat, b / 2 / 2 ^ j = b / 2 ^ (j + 1) :=
      ediv_two_pow_succ b (by omega)
    have h2 : ∀ j, j < k → 16 < b / 2 / 2 ^ j := by
      intro j hj
      rw [hstep]
      exact h (j + 1) (Nat.succ_lt_succ hj)
    rw [List.replicate_succ, List.cons_append,
      readLoop_fail_halve s e cur b 0 0 (-1) _ (by decide) h0 hrem,
      ih (b / 2) h2 (by omega), Run.after_after, hstep, List.range_succ_eq_map]
    simp [List.replicate_succ, hstep, Function.comp_def]

theorem retry_phase (s e cur b : Int) (ts : List Tick) (hb1 : 1 ≤ b) (hb : b ≤ 16)
    (hrem : b ≤ e + 1 - cur) :
    ∀ (n : Nat) (r : Int), r + n = 10 →
      readLoop s e (List.replicate n failTick ++ ts) ⟨cur, b, r, 0, -1, true⟩ =
        (readLoop s e ts ⟨cur, b, 10, 0, -1, true⟩).after
          (List.replicate n (Event.read cur b)) (List.replicate n Branch.retry) := by
  intro n
  induction n with
  | zero =>
    intro r hr
    have : r = 10 := by simpa using hr
    simp [Run.after_nil, this]
  | succ n ih =>
    intro r hr
    rw [List.replicate_succ, List.cons_append,
      readLoop_fail_retry s e cur b r 0 (-1) _ (by decide) hb1 hb hrem (by push_cast at hr; omega),
      ih (r + 1) (by push_cast at hr; omega), Run.after_after]
    simp [List.replicate_succ]

theorem skip_phase (s e b : Int) (ts : List Tick) (hb1 : 1 ≤ b) (hb : b ≤ 16) :
    ∀ (n : Nat) (cur k : Int), k + n = 10 → 0 ≤ k → cur + 75 * n ≤ e + 1 →
      readLoop s e (List.replicate n failTick ++ ts) ⟨cur, b, 10, k, -1, true⟩ =
        (readLoop s e ts ⟨cur + 75 * n, b, 10, 10, -1, true⟩).after
          ((List.range n).map (fun j : Nat => Event.read (cur + 75 * (j : Int)) b))
          (List.replicate n Branch.skip) := by
  intro n
  induction n with
  | zero =>
    intro cur k hk _ _
    have : k = 10 := by simpa using hk
    simp [Run.after_nil, this]
  | succ n ih =>
    intro cur k hk hk0 hrem
    push_cast at hk hrem
    rw [List.replicate_succ, List.cons_append,
      readLoop_fail_skip s e cur b 10 k (-1) _ (by decide) hb1 hb (by omega) (by decide)
        (by omega),
      ih (cur + 75) (k + 1) (by omega) (by omega) (by omega), Run.after_after,
      List.range_succ_eq_map]
    have e1 : cur + 75 + 75 * (n : Int) = cur + 75 * ((n : Int) + 1) := by ring
    have e2 : ∀ j : Nat, cur + 75 + 75 * (j : Int) = cur + 75 * ((j : Int) + 1) := by
      intro j; ring
    simp [List.replicate_succ, Function.comp_def, e1, e2]

theorem all_fail_run (s e cur b : Int) (k : Nat) (ts : List Tick)
    (hk : ∀ j, j < k → 16 < b / 2 ^ j) (hk1 : 1 ≤ b / 2 ^ k) (hk2 : b / 2 ^ k ≤ 16)
    (hb : b ≤ 450) (hrem : e - cur ≥ 750) :
    readLoop s e (List.replicate (k + 21) failTick ++ ts) ⟨cur, b, 0, 0, -1, true⟩ =
      expectedFailRun cur e b k := by
  have hsplit : List.replicate (k + 21) failTick ++ ts =
      List.replicate k failTick ++ (List.replicate 10 failTick ++
        (List.replicate 10 failTick ++ (failTick :: ts))) := by
    rw [show k + 21 = k + (10 + (10 + 1)) from rfl, List.replicate_add, List.replicate_add,
      List.replicate_add]
    simp
  have hle : b / 2 ^ k ≤ e + 1 - cur := by omega
  rw [hsplit, halve_phase s e cur _ k b hk (by omega),
    retry_phase s e cur (b / 2 ^ k) _ hk1 hk2 hle 10 0 (by norm_num),
    skip_phase s e (b / 2 ^ k) _ hk1 hk2 10 cur 0 (by norm_num) (by norm_num)
      (by push_cast; omega),
    readLoop_fail_giveUp s e _ _ 10 10 (-1) ts (by decide) hk1 hk2 (by push_cast; omega)
      (by decide) (by decide)]
  simp [Run.after, expectedFailRun, List.append_assoc]

theorem halvings_exist (b : Int) (hb : 16 < b) (hb2 : b ≤ 450) :
    ∃ k : Nat, 1 ≤ k ∧ k ≤ 5 ∧ 1 ≤ b / 2 ^ k ∧ b / 2 ^ k ≤ 16 ∧ ∀ j, j < k → 16 < b / 2 ^ j := by
  by_cases h1 : b ≤ 33
  · refine ⟨1, by decide, by decide, by norm_num; omega, by norm_num; omega, ?_⟩
    intro j hj
    obtain rfl : j = 0 := by omega
    simpa using hb
  by_cases h2 : b ≤ 67
  · refine ⟨2, by decide, by decide, by norm_num; omega, by norm_num; omega, ?_⟩
    intro j hj
    interval_cases j <;> norm_num <;> omega
  by_cases h3 : b ≤ 135
  · refine ⟨3, by decide, by decide, by norm_num; omega, by norm_num; omega, ?_⟩
    intro j hj
    interval_cases j <;> norm_num <;> omega
  by_cases h4 : b ≤ 271
  · refine ⟨4, by decide, by decide, by norm_num; omega, by norm_num; omega, ?_⟩
    intro j hj
    interval_cases j <;> norm_num <;> omega
  · refine ⟨5, by decide, by decide, by norm_num; omega, by norm_num; omega, ?_⟩
    intro j hj
    interval_cases j <;> norm_num <;> omega

/-- C2. With an initial batch of `b` sectors, `16 < b ≤ 450`, at least 751 sectors left
(`e - cur ≥ 750`), no seek pending and no host command, a supply of `n ≥ 27` failing
reads makes the loop halve the batch `k` times, where `k` is the least number with
`b / 2 ^ k ≤ 16` and `1 ≤ k ≤ 5`, then retry 10 times at `cur` with the reduced size, then
skip 10 times by 75 sectors, and give up on failure number `k + 21 ≤ 26`. -/
theorem all_reads_fail (s e cur b : Int) (n : Nat) (hb : 16 < b) (hb2 : b ≤ 450)
    (hrem : e - cur ≥ 750) (hn : 27 ≤ n) :
    ∃ k : Nat, (b / 2 ^ k ≤ 16 ∧ ∀ j, j < k → 16 < b / 2 ^ j) ∧ 1 ≤ k ∧ k ≤ 5 ∧
      readLoop s e (List.replicate n failTick) ⟨cur, b, 0, 0, -1, true⟩ =
        expectedFailRun cur e b k ∧
      (expectedFailRun cur e b k).trail.length = k + 21 ∧ k + 21 ≤ 26 := by
  obtain ⟨k, hk1, hk5, hlo, hhi, hall⟩ := halvings_exist b hb hb2
  refine ⟨k, ⟨hhi, hall⟩, hk1, hk5, ?_, ?_, by omega⟩
  · have hsplit : List.replicate n failTick =
        List.replicate (k + 21) failTick ++ List.replicate (n - (k + 21)) failTick := by
      rw [← List.replicate_add]
      congr 1
      omega
    rw [hsplit]
    exact all_fail_run s e cur b k _ hall hlo hhi hb2 hrem
  · simp [expectedFailRun]

/-- C2, witness: a batch of 450 sectors at sector 0 of a range ending at sector 750. -/
theorem all_reads_fail_witness :
    ∃ k : Nat, ((450 : Int) / 2 ^ k ≤ 16 ∧ ∀ j, j < k → 16 < (450 : Int) / 2 ^ j) ∧ 1 ≤ k ∧ k ≤ 5 ∧
      readLoop 0 750 (List.replicate 27 failTick) ⟨0, 450, 0, 0, -1, true⟩ =
        expectedFailRun 0 750 450 k ∧
      (expectedFailRun 0 750 450 k).trail.length = k + 21 ∧ k + 21 ≤ 26 :=
  all_reads_fail 0 750 0 450 27 (by decide) (by decide) (by decide) (by decide)

theorem wrap32_of_range (x : Int) (h0 : -2147483648 ≤ x) (h1 : x < 2147483648) : wrap32 x = x := by
  unfold wrap32
  omega

theorem ms_to_sectors (t : Int) (h0 : 0 ≤ t) (h1 : t * 75 < 2 ^ 31) :
    cdiv (wrap32 (t * 75)) 1000 = t * 75 / 1000 := by
  rw [wrap32_of_range _ (by omega) (by norm_num at h1; omega)]
  exact cdiv_of_nonneg _ _ (by omega) (by decide)

theorem serveAll_no_read (cmds : List Cmd) (st : PlayState) (lsn n : Int) :
    Event.read lsn n ∉ (serveAll cmds st).1 := by
  induction cmds generalizing st with
  | nil => simp [serveAll]
  | cons c cs ih =>
    cases c <;> simp [serveAll, serve, ih]

theorem applySeek_no_read (s : Int) (st : PlayState) (lsn n : Int) :
    Event.read lsn n ∉ (applySeek s st).1 := by
  unfold applySeek
  split <;> simp

/-- Every read the loop issues asks for at least one sector and ends at or before `e`. -/
theorem readLoop_reads_le_end (s e : Int) (ticks : List Tick) :
    ∀ (st : PlayState) (lsn n : Int), Event.read lsn n ∈ (readLoop s e ticks st).events →
      1 ≤ n ∧ lsn + n - 1 ≤ e := by
  induction ticks with
  | nil =>
    intro st lsn n h
    unfold readLoop at h
    split at h
    · simp at h
    · simp only at h
      split at h
      · exact absurd h (applySeek_no_read s st lsn n)
      · rename_i hs
        simp only [List.mem_append, List.mem_singleton, Event.read.injEq] at h
        rcases h with h | ⟨h1, h2⟩
        · exact absurd h (applySeek_no_read s st lsn n)
        · subst h1 h2
          simp only [clampSectors, MIN_eq_min] at hs ⊢
          omega
  | cons t ts ih =>
    intro st lsn n h
    unfold readLoop at h
    split at h
    · simp at h
    · simp only at h
      split at h
      · exact absurd h (applySeek_no_read s st lsn n)
      · rename_i hs
        have key : Event.read lsn n ∈ (Event.read (clampSectors e (applySeek s st).2).currlsn
            (clampSectors e (applySeek s st).2).sectors ::
            (if t.ok then [Event.write (2352 * (clampSectors e (applySeek s st).2).sectors)]
              else [])) → 1 ≤ n ∧ lsn + n - 1 ≤ e := by
          intro hm
          have : lsn = (clampSectors e (applySeek s st).2).currlsn ∧
              n = (clampSectors e (applySeek s st).2).sectors := by
            cases hok : t.ok <;> simpa [hok] using hm
          obtain ⟨h1, h2⟩ := this
          subst h1 h2
          simp only [clampSectors, MIN_eq_min] at hs ⊢
          omega
        split at h
        · simp only [List.mem_append, List.mem_singleton] at h
          rcases h with ((h | h) | h) | h
          · exact absurd h (applySeek_no_read s st lsn n)
          · exact key h
          · exact absurd h (serveAll_no_read _ _ lsn n)
          · simp at h
        · simp only [Run.after, List.mem_append] at h
          rcases h with ((h | h) | h) | h
          · exact absurd h (applySeek_no_read s st lsn n)
          · exact key h
          · exact absurd h (serveAll_no_read _ _ lsn n)
          · exact ih _ lsn n h

theorem playEndLsn_of_stop (s e stop : Int) (h0 : 0 ≤ stop) (h1 : stop * 75 < 2 ^ 31) :
    playEndLsn s e stop = min e (s + stop * 75 / 1000) := by
  unfold playEndLsn
  rw [if_pos (by omega), MIN_eq_min, ms_to_sectors stop h0 h1]

theorem cdaudio_play_runs (env : Env) (s : Session) (tab : List trackinfo_t) (name : CStr)
    (start stop : Int) (pause : Bool) (ticks : List Tick)
    (htab : s.trackinfo = some tab)
    (h0 : 0 ≤ find_trackno_from_filename name)
    (h1 : s.firsttrackno ≤ find_trackno_from_filename name)
    (h2 : find_trackno_from_filename name ≤ s.lasttrackno)
    (h3 : env.track_audiop (find_trackno_from_filename name) = true)
    (h4 : env.open_audio_ok = true) :
    (cdaudio_play env s name start stop pause ticks).events =
      [Event.open_audio] ++ (if pause then [Event.pause true] else []) ++
        [Event.set_params 1411200 44100 2, Event.set_pb_ready] ++
        (loopFrom env.config (entry env tab (find_trackno_from_filename name)).startlsn
          (playEndLsn (entry env tab (find_trackno_from_filename name)).startlsn
            (entry env tab (find_trackno_from_filename name)).endlsn stop) start ticks).events ∧
    (cdaudio_play env s name start stop pause ticks).ret =
      (loopFrom env.config (entry env tab (find_trackno_from_filename name)).startlsn
          (playEndLsn (entry env tab (find_trackno_from_filename name)).startlsn
            (entry env tab (find_trackno_from_filename name)).endlsn stop) start ticks).exit.map
        (fun _ => true) := by
  have c1 : ¬ find_trackno_from_filename name < 0 := by omega
  have c2 : ¬ (find_trackno_from_filename name < s.firsttrackno ∨
      find_trackno_from_filename name > s.lasttrackno) := by omega
  unfold cdaudio_play
  simp only [htab, Option.isNone_some, Bool.false_eq_true, if_false, c1, c2, h3, h4,
    Bool.not_true]
  unfold playTrack loopFrom
  simp only
  split
  · rename_i hx
    simp [hx]
  · rename_i x hx
    simp [hx]

/-- C4.  For a play request that passes the preconditions, with the track's sector
bounds `s`, `e` read from the Track Table: for a stop offset `stop ≥ 0` with
`stop * 75` inside the `int` range `cdaudio_play` runs its read loop with the end
sector `min e (s + stop * 75 / 1000)`; without a stop offset (`stop < 0`) it runs
the loop with the end sector `e`; in both cases no read goes beyond `e`.  The
end sector is `playEndLsn`, which is that minimum, never exceeds `e`, and is `e`
when `stop < 0`. -/
theorem play_end_clamped (env : Env) (s : Session) (tab : List trackinfo_t) (name : CStr)
    (start stop : Int) (pause : Bool) (ticks : List Tick)
    (htab : s.trackinfo = some tab)
    (h0 : 0 ≤ find_trackno_from_filename name)
    (h1 : s.firsttrackno ≤ find_trackno_from_filename name)
    (h2 : find_trackno_from_filename name ≤ s.lasttrackno)
    (h3 : env.track_audiop (find_trackno_from_filename name) = true)
    (h4 : env.open_audio_ok = true) :
    (0 ≤ stop → stop * 75 < 2 ^ 31 →
      (cdaudio_play env s name start stop pause ticks).events =
        [Event.open_audio] ++ (if pause then [Event.pause true] else []) ++
          [Event.set_params 1411200 44100 2, Event.set_pb_ready] ++
          (loopFrom env.config (entry env tab (find_trackno_from_filename name)).startlsn
            (min (entry env tab (find_trackno_from_filename name)).endlsn
              ((entry env tab (find_trackno_from_filename name)).startlsn + stop * 75 / 1000))
            start ticks).events ∧
      (cdaudio_play env s name start stop pause ticks).ret =
        (loopFrom env.config (entry env tab (find_trackno_from_filename name)).startlsn
            (min (entry env tab (find_trackno_from_filename name)).endlsn
              ((entry env tab (find_trackno_from_filename name)).startlsn + stop * 75 / 1000))
            start ticks).exit.map (fun _ => true)) ∧
    (stop < 0 →
      (cdaudio_play env s name start stop pause ticks).events =
        [Event.open_audio] ++ (if pause then [Event.pause true] else []) ++
          [Event.set_params 1411200 44100 2, Event.set_pb_ready] ++
          (loopFrom env.config (entry env tab (find_trackno_from_filename name)).startlsn
            (entry env tab (find_trackno_from_filename name)).endlsn start ticks).events ∧
      (cdaudio_play env s name start stop pause ticks).ret =
        (loopFrom env.config (entry env tab (find_trackno_from_filename name)).startlsn
            (entry env tab (find_trackno_from_filename name)).endlsn start ticks).exit.map
          (fun _ => true)) ∧
    (∀ lsn n, Event.read lsn n ∈ (cdaudio_play env s name start stop pause ticks).events →
      lsn + n - 1 ≤ (entry env tab (find_trackno_from_filename name)).endlsn) ∧
    (∀ s0 e : Int,
      (0 ≤ stop → stop * 75 < 2 ^ 31 → playEndLsn s0 e stop = min e (s0 + stop * 75 / 1000)) ∧
      playEndLsn s0 e stop ≤ e ∧
      (stop < 0 → playEndLsn s0 e stop = e)) := by
  obtain ⟨hev, hret⟩ := cdaudio_play_runs env s tab name start stop pause ticks htab h0 h1 h2 h3 h4
  have hle : ∀ s0 e : Int, playEndLsn s0 e stop ≤ e := by
    intro s0 e
    unfold playEndLsn
    split
    · rw [MIN_eq_min]; omega
    · omega
  have hneg : ∀ s0 e : Int, stop < 0 → playEndLsn s0 e stop = e := by
    intro s0 e h
    unfold playEndLsn
    rw [if_neg (by omega)]
  refine ⟨?_, ?_, ?_, fun s0 e => ⟨playEndLsn_of_stop s0 e stop, hle s0 e, hneg s0 e⟩⟩
  · intro hs hfit
    rw [hev, hret, playEndLsn_of_stop _ _ stop hs hfit]
    exact ⟨rfl, rfl⟩
  · intro hs
    rw [hev, hret, hneg _ _ hs]
    exact ⟨rfl, rfl⟩
  · intro lsn n hm
    rw [hev] at hm
    have hm2 : Event.read lsn n ∈ (loopFrom env.config
        (entry env tab (find_trackno_from_filename name)).startlsn
        (playEndLsn (entry env tab (find_trackno_from_filename name)).startlsn
          (entry env tab (find_trackno_from_filename name)).endlsn stop) start ticks).events := by
      cases pause <;> simpa using hm
    have := (readLoop_reads_le_end _ _ ticks _ lsn n hm2).2
    have hl := hle (entry env tab (find_trackno_from_filename name)).startlsn
      (entry env tab (find_trackno_from_filename name)).endlsn
    omega

/-- C4, witness: track 2 of the scanned example disc (sectors 1000 to 1999) with a
stop offset of 5000 ms. -/
theorem play_end_clamped_witness :
    (cdaudio_play exampleEnv (refresh_trackinfo exampleEnv true initialSession).2
        "cdda://?2".toList 0 5000 false [okTick]).events =
      [Event.open_audio] ++ (if false then [Event.pause true] else []) ++
        [Event.set_params 1411200 44100 2, Event.set_pb_ready] ++
        (loopFrom exampleEnv.config 1000 (min 1999 (1000 + 5000 * 75 / 1000)) 0
          [okTick]).events ∧
    (∀ lsn n, Event.read lsn n ∈
        (cdaudio_play exampleEnv (refresh_trackinfo exampleEnv true initialSession).2
          "cdda://?2".toList 0 5000 false [okTick]).events →
      lsn + n - 1 ≤ 1999) ∧
    playEndLsn 1000 1999 5000 = min 1999 (1000 + 5000 * 75 / 1000) ∧
    playEndLsn 1000 1999 5000 ≤ 1999 :=
  have h := play_end_clamped exampleEnv (refresh_trackinfo exampleEnv true initialSession).2
    ((refresh_trackinfo exampleEnv true initialSession).2.trackinfo.getD [])
    "cdda://?2".toList 0 5000 false [okTick] (by decide) (by decide) (by decide) (by decide)
    (by decide) (by decide)
  ⟨(h.1 (by decide) (by decide)).1, h.2.2.1,
   (h.2.2.2 1000 1999).1 (by decide) (by decide), (h.2.2.2 1000 1999).2.1⟩

theorem readLoop_seek (s e : Int) (ticks : List Tick) (st : PlayState) (hp : st.playing = true)
    (hs : 0 ≤ st.seek_time) :
    readLoop s e ticks st =
      (readLoop s e ticks (applySeek s st).2).after [Event.flush st.seek_time] [] := by
  have h1 : st.seek_time ≥ 0 := hs
  cases ticks with
  | nil =>
    simp only [readLoop, applySeek, hp, h1, if_true, Run.after]
    simp
    split <;> simp
  | cons t ts =>
    simp only [readLoop, applySeek, hp, h1, if_true, Run.after]
    simp
    split
    · simp
    · split <;> simp [Run.after]

theorem readLoop_head (s e : Int) (ticks : List Tick) (st : PlayState) (hs : st.seek_time < 0) :
    (readLoop s e ticks st).events = [] ∨
      ∃ n rest, (readLoop s e ticks st).events = Event.read st.currlsn n :: rest := by
  have h1 : ¬ (st.seek_time ≥ 0) := by omega
  cases ticks with
  | nil =>
    unfold readLoop
    simp only [applySeek, h1, if_false]
    split
    · simp
    · split
      · simp
      · right
        exact ⟨_, _, rfl⟩
  | cons t ts =>
    unfold readLoop
    simp only [applySeek, h1, if_false]
    split
    · simp
    · split
      · simp
      · right
        split
        · exact ⟨_, _, rfl⟩
        · exact ⟨_, _, rfl⟩

theorem serveAll_no_flush (cmds : List Cmd) (st : PlayState) (t : Int) :
    Event.flush t ∉ (serveAll cmds st).1 := by
  induction cmds generalizing st with
  | nil => simp [serveAll]
  | cons c cs ih =>
    cases c <;> simp [serveAll, serve, ih]

theorem serveAll_seek_time (cmds : List Cmd) (st : PlayState)
    (h : ∀ c ∈ cmds, ∀ t, c ≠ Cmd.mseek t) : (serveAll cmds st).2.seek_time = st.seek_time := by
  induction cmds generalizing st with
  | nil => simp [serveAll]
  | cons c cs ih =>
    have hcs : ∀ c ∈ cs, ∀ t, c ≠ Cmd.mseek t := fun c hc => h c (List.mem_cons_of_mem _ hc)
    cases c with
    | stop => simp [serveAll, serve, ih _ hcs]
    | pause f => simp [serveAll, serve, ih _ hcs]
    | mseek t => exact absurd rfl (h _ (List.mem_cons_self _ _) t)

theorem recover_seek_time (e : Int) (ok : Bool) (st st2 : PlayState)
    (h : recover e ok st = Recovery.next st2) : st2.seek_time = st.seek_time := by
  unfold recover at h
  split at h
  · injection h with h; subst h; rfl
  · split at h
    · injection h with h; subst h; rfl
    · split at h
      · injection h with h; subst h; rfl
      · split at h
        · injection h with h; subst h; rfl
        · cases h

/-- Without a pending seek and without a seek request the loop never flushes the sink. -/
theorem readLoop_no_flush (s e : Int) (ticks : List Tick) :
    ∀ (st : PlayState), st.seek_time < 0 →
      (∀ tk ∈ ticks, ∀ c ∈ tk.cmds, ∀ t, c ≠ Cmd.mseek t) →
      ∀ t, Event.flush t ∉ (readLoop s e ticks st).events := by
  induction ticks with
  | nil =>
    intro st hs _ t
    have h1 : ¬ (st.seek_time ≥ 0) := by omega
    unfold readLoop
    simp only [applySeek, h1, if_false]
    split
    · simp
    · split <;> simp
  | cons tk ts ih =>
    intro st hs hc t
    have h1 : ¬ (st.seek_time ≥ 0) := by omega
    have hc1 : ∀ c ∈ tk.cmds, ∀ t, c ≠ Cmd.mseek t := hc tk (List.mem_cons_self _ _)
    have hc2 : ∀ tk ∈ ts, ∀ c ∈ tk.cmds, ∀ t, c ≠ Cmd.mseek t :=
      fun tk h => hc tk (List.mem_cons_of_mem _ h)
    have hio : Event.flush t ∉ (Event.read (clampSectors e st).currlsn (clampSectors e st).sectors ::
        (if tk.ok then [Event.write (2352 * (clampSectors e st).sectors)] else [])) := by
      cases tk.ok <;> simp
    unfold readLoop
    simp only [applySeek, h1, if_false]
    split
    · simp
    · split
      · simp
      · split
        · intro hm
          simp only [List.mem_append, List.mem_singleton] at hm
          rcases hm with ((hm | hm) | hm) | hm
          · simp at hm
          · exact hio hm
          · exact serveAll_no_flush _ _ t hm
          · simp at hm
        · rename_i st2 hrec
          intro hm
          simp only [Run.after, List.mem_append] at hm
          have hst2 : st2.seek_time < 0 := by
            rw [recover_seek_time _ _ _ _ hrec, serveAll_seek_time _ _ hc1]
            exact hs
          rcases hm with ((hm | hm) | hm) | hm
          · simp at hm
          · exact hio hm
          · exact serveAll_no_flush _ _ t hm
          · exact ih st2 hst2 hc2 t hm

/-- C5, counterexample.  For the seek target 28633116 ms the product with 75 leaves
the `int` range: the loop sets the current sector to -2146483 where the claim has
1000 + 2147483 = 2148483, and then reads there. -/
theorem seek_overflow_counterexample :
    (applySeek 1000 ⟨1000, 37, 0, 0, 28633116, true⟩).2.currlsn = -2146483 ∧
    (1000 + 28633116 * 75 / 1000 : Int) = 2148483 ∧
    (cdaudio_play exampleEnv initialSession "cdda://?2".toList 0 (-1) false
      [⟨true, [Cmd.mseek 28633116]⟩]).events.drop 8 =
      [Event.read 1000 37, Event.write 87024, Event.abort_write, Event.flush 28633116,
       Event.read (-2146483) 37] := by
  decide

/-- C5, amended.  For a seek target `t ≥ 0` with `t * 75` inside the `int` range that
is pending when the loop starts an iteration: the seek block flushes the sink at
`t`, sets the current sector to `start_sector + t * 75 / 1000` whatever the position
was, and clears the pending seek; the flush is the first event of the loop, the
next event (if any) is the read at that sector, and without a further seek
request the loop never flushes again. -/
theorem seek_applied_once (s e t : Int) (ticks : List Tick) (st : PlayState)
    (hp : st.playing = true) (hs : st.seek_time = t) (h0 : 0 ≤ t) (hov : t * 75 < 2 ^ 31) :
    applySeek s st = ([Event.flush t], { st with currlsn := s + t * 75 / 1000, seek_time := -1 }) ∧
    ∃ rest, (readLoop s e ticks st).events = Event.flush t :: rest ∧
      (rest = [] ∨ ∃ n rest2, rest = Event.read (s + t * 75 / 1000) n :: rest2) ∧
      ((∀ tk ∈ ticks, ∀ c ∈ tk.cmds, ∀ t2, c ≠ Cmd.mseek t2) → ∀ t2, Event.flush t2 ∉ rest) := by
  subst hs
  have ha : applySeek s st =
      ([Event.flush st.seek_time],
       { st with currlsn := s + st.seek_time * 75 / 1000, seek_time := -1 }) := by
    unfold applySeek
    rw [if_pos (by omega), ms_to_sectors _ h0 hov]
  have hneg : (applySeek s st).2.seek_time < 0 := by
    rw [ha]
    show (-1 : Int) < 0
    decide
  refine ⟨ha, (readLoop s e ticks (applySeek s st).2).events, ?_, ?_, ?_⟩
  · rw [readLoop_seek s e ticks st hp h0]
    simp [Run.after]
  · have := readLoop_head s e ticks (applySeek s st).2 hneg
    rw [ha] at this ⊢
    exact this
  · intro hc t2
    exact readLoop_no_flush s e ticks _ hneg hc t2

/-- C5, witness: a seek to 5000 ms in the track starting at sector 1000. -/
theorem seek_applied_once_witness :
    applySeek 1000 ⟨1700, 37, 3, 0, 5000, true⟩ =
      ([Event.flush 5000], ⟨1000 + 5000 * 75 / 1000, 37, 3, 0, -1, true⟩) ∧
    ∃ rest, (readLoop 1000 1999 [okTick, okTick] ⟨1700, 37, 3, 0, 5000, true⟩).events =
        Event.flush 5000 :: rest ∧
      (rest = [] ∨ ∃ n rest2, rest = Event.read (1000 + 5000 * 75 / 1000) n :: rest2) ∧
      ((∀ tk ∈ [okTick, okTick], ∀ c ∈ tk.cmds, ∀ t2, c ≠ Cmd.mseek t2) →
        ∀ t2, Event.flush t2 ∉ rest) :=
  seek_applied_once 1000 1999 5000 [okTick, okTick] ⟨1700, 37, 3, 0, 5000, true⟩ rfl rfl
    (by decide) (by decide)

/-- C6.  While `playing` is true a poll tick changes nothing in the session (drive
handle, Track Table, track counters, timer handle), causes no event (no
revalidation, scan, close or purge) and asks for the timer to stay armed. -/
theorem monitor_while_playing (env : Env) (s : Session) (h : s.playing = true) :
    monitor env s = ([], s, true) := by
  simp [monitor, h]

/-- C6, witness: the disc is taken out while the scanned example disc is playing. -/
theorem monitor_while_playing_witness :
    monitor noDiscEnv
      { (refresh_trackinfo exampleEnv true initialSession).2 with playing := true } =
      ([], { (refresh_trackinfo exampleEnv true initialSession).2 with playing := true }, true) :=
  monitor_while_playing noDiscEnv _ rfl

theorem refresh_disc_gone (env : Env) (w : Bool) (s : Session) (d : Drive)
    (hd : s.pcdrom_drive = some d)
    (hmode : env.discmode ≠ DiscMode.CD_DA ∧ env.discmode ≠ DiscMode.CD_MIXED) :
    (refresh_trackinfo env w s).2 =
      { s with pcdrom_drive := none, trackinfo := none,
               monitor_source := (trigger_monitor s).2.monitor_source } ∧
    Event.drive_close ∈ (refresh_trackinfo env w s).1 := by
  unfold refresh_trackinfo trigger_monitor
  by_cases hm : s.monitor_source = 0 <;> simp [hm, hd, hmode]

/-- C7, counterexample.  After a scan that failed (drive open, no Track Table, timer
armed) the disc is taken out: the poll tick disarms the timer and the drive
handle is still open. -/
theorem monitor_disc_gone_counterexample :
    (refresh_trackinfo badTocEnv true initialSession).2.playing = false ∧
    noDiscEnv.discmode = DiscMode.NO_INFO ∧
    (monitor noDiscEnv (refresh_trackinfo badTocEnv true initialSession).2).2.2 = false ∧
    (monitor noDiscEnv (refresh_trackinfo badTocEnv true initialSession).2).2.1.monitor_source = 0 ∧
    (monitor noDiscEnv (refresh_trackinfo badTocEnv true initialSession).2).2.1.pcdrom_drive =
      some { device := "/dev/sr0".toList, bigendianp := 0 } := by
  decide

/-- C7, amended.  For a session with `playing` false that has a Track Table and an open
drive handle, when the disc mode is neither audio nor mixed: after the poll tick
there is no drive handle and no Track Table, the timer handle is cleared, the tick
returns false, the drive was closed and the purge was signalled.  Whenever a
tick returns false, no Track Table is left, the timer handle is cleared and the
purge was signalled. -/
theorem monitor_disc_gone (env : Env) (s : Session) (d : Drive) (tab : List trackinfo_t)
    (hp : s.playing = false) (htab : s.trackinfo = some tab) (hd : s.pcdrom_drive = some d)
    (hmode : env.discmode ≠ DiscMode.CD_DA ∧ env.discmode ≠ DiscMode.CD_MIXED) :
    ((monitor env s).2.1 =
        { s with pcdrom_drive := none, trackinfo := none, monitor_source := 0 } ∧
      (monitor env s).2.2 = false ∧
      Event.drive_close ∈ (monitor env s).1 ∧
      Event.purge_all_playlists ∈ (monitor env s).1) ∧
    ∀ (env2 : Env) (s2 : Session), (monitor env2 s2).2.2 = false →
      (monitor env2 s2).2.1.trackinfo = none ∧ (monitor env2 s2).2.1.monitor_source = 0 ∧
      Event.purge_all_playlists ∈ (monitor env2 s2).1 := by
  constructor
  · obtain ⟨h1, h2⟩ := refresh_disc_gone env false s d hd hmode
    have h3 : (refresh_trackinfo env false s).2.trackinfo = none := by rw [h1]
    unfold monitor
    simp only [hp, Bool.false_eq_true, if_false, htab, Option.isSome_some, if_true, h3,
      Option.isSome_none]
    refine ⟨?_, trivial, ?_, ?_⟩
    · rw [h1]
      simp [hp]
    · simp [h2]
    · simp
  · intro env2 s2 h
    unfold monitor at h ⊢
    by_cases hpl : s2.playing = true
    · simp [hpl] at h
    · simp only [hpl, if_false] at h ⊢
      generalize (if s2.trackinfo.isSome = true then refresh_trackinfo env2 false s2
        else ([], s2)) = r at h ⊢
      by_cases hr : r.2.trackinfo.isSome = true
      · simp [hr] at h
      · simp only [hr, if_false]
        simpa using hr

/-- C7, witness: the disc is taken out after the example disc was scanned. -/
theorem monitor_disc_gone_witness :
    ((monitor noDiscEnv (refresh_trackinfo exampleEnv true initialSession).2).2.1 =
        { (refresh_trackinfo exampleEnv true initialSession).2 with
            pcdrom_drive := none, trackinfo := none, monitor_source := 0 } ∧
      (monitor noDiscEnv (refresh_trackinfo exampleEnv true initialSession).2).2.2 = false ∧
      Event.drive_close ∈ (monitor noDiscEnv (refresh_trackinfo exampleEnv true initialSession).2).1 ∧
      Event.purge_all_playlists ∈
        (monitor noDiscEnv (refresh_trackinfo exampleEnv true initialSession).2).1) ∧
    ∀ (env2 : Env) (s2 : Session), (monitor env2 s2).2.2 = false →
      (monitor env2 s2).2.1.trackinfo = none ∧ (monitor env2 s2).2.1.monitor_source = 0 ∧
      Event.purge_all_playlists ∈ (monitor env2 s2).1 :=
  monitor_disc_gone noDiscEnv (refresh_trackinfo exampleEnv true initialSession).2
    { device := "/dev/sr0".toList, bigendianp := 0 }
    ((refresh_trackinfo exampleEnv true initialSession).2.trackinfo.getD [])
    (by decide) (by decide) (by decide) (by decide)

theorem scanCount_append (a b : List Event) : scanCount (a ++ b) = scanCount a + scanCount b := by
  simp [scanCount, List.count_append]

theorem scanCddb_scanCount (env : Env) (first last : Int) (tab : List trackinfo_t) :
    scanCount (scanCddb env first last tab).1 = 0 := by
  unfold scanCddb scanCount
  split
  · split
    · simp
    · split
      · split <;> simp
      · split
        · simp
        · split <;> simp
  · simp

theorem scan_cd_scanCount (env : Env) (s : Session) (d : Drive) (hd : s.pcdrom_drive = some d)
    (ht : s.trackinfo = none) :
    scanCount (scan_cd env s).1 = 1 ∧ (scan_cd env s).2.pcdrom_drive.isSome = true := by
  have hw : List.count Event.scan (if env.speed_set_ok = true then []
      else [Event.warn "Cannot set drive speed.\n"]) = 0 := by
    split <;> simp
  have hc : ∀ first last tab, List.count Event.scan (scanCddb env first last tab).1 = 0 :=
    scanCddb_scanCount env
  unfold scan_cd
  simp only [hd, ht, Option.isSome_none, Bool.false_eq_true, if_false]
  split
  · simp [scanCount]
  · split
    · simp [scanCount, List.count_append, hw]
    · split
      · simp [scanCount, List.count_append, hw]
      · split
        · simp [scanCount, List.count_append, hw]
        · simp [scanCount, List.count_append, hw, hc]

theorem refresh_scan (env : Env) (w : Bool) (s : Session) (d : Drive)
    (hd : s.pcdrom_drive = some d)
    (hmode : env.discmode = DiscMode.CD_DA ∨ env.discmode = DiscMode.CD_MIXED) :
    (s.trackinfo = none ∨ env.media_changed = true →
      scanCount (refresh_trackinfo env w s).1 = 1 ∧
      (refresh_trackinfo env w s).2.pcdrom_drive.isSome = true) ∧
    (¬ (s.trackinfo = none ∨ env.media_changed = true) →
      scanCount (refresh_trackinfo env w s).1 = 0 ∧
      (refresh_trackinfo env w s).2.pcdrom_drive = s.pcdrom_drive ∧
      (refresh_trackinfo env w s).2.trackinfo = s.trackinfo) := by
  have hm : ¬ (env.discmode ≠ DiscMode.CD_DA ∧ env.discmode ≠ DiscMode.CD_MIXED) := by
    rcases hmode with h | h <;> simp [h]
  have htm : scanCount (trigger_monitor s).1 = 0 := by
    unfold trigger_monitor
    split <;> simp [scanCount]
  have hd1 : (trigger_monitor s).2.pcdrom_drive = some d := by
    unfold trigger_monitor
    split <;> simpa using hd
  have ht1 : (trigger_monitor s).2.trackinfo = s.trackinfo := by
    unfold trigger_monitor
    split <;> rfl
  have hsc : ∀ s2 : Session, s2.pcdrom_drive = some d → s2.trackinfo = none →
      scanCount (scan_cd env s2).1 = 1 ∧ (scan_cd env s2).2.pcdrom_drive.isSome = true :=
    fun s2 h1 h2 => scan_cd_scanCount env s2 d h1 h2
  unfold refresh_trackinfo
  simp only [hd1, Option.isNone_some, Bool.false_eq_true, if_false, hm, ht1]
  constructor
  · intro h
    by_cases hn : s.trackinfo = none
    · simp only [hn, Option.isNone_none, if_true]
      refine ⟨?_, (hsc _ rfl rfl).2⟩
      rw [scanCount_append, scanCount_append, scanCount_append, htm, (hsc _ rfl rfl).1]
      simp [scanCount]
    · have hmc : env.media_changed = true := by
        rcases h with h | h
        · exact absurd h hn
        · exact h
      have hn2 : s.trackinfo.isNone = false := by
        cases hti : s.trackinfo with
        | none => exact absurd hti hn
        | some _ => rfl
      simp only [hn2, Bool.false_eq_true, if_false, hmc, if_true]
      refine ⟨?_, (hsc _ rfl rfl).2⟩
      rw [scanCount_append, scanCount_append, scanCount_append, htm, (hsc _ rfl rfl).1]
      simp [scanCount]
  · intro h
    have hn : s.trackinfo ≠ none := fun hh => h (Or.inl hh)
    have hmc : ¬ (env.media_changed = true) := fun hh => h (Or.inr hh)
    have hn2 : s.trackinfo.isNone = false := by
      cases hti : s.trackinfo with
      | none => exact absurd hti hn
      | some _ => rfl
    simp only [hn2, Bool.false_eq_true, if_false, hmc]
    refine ⟨?_, ?_, ht1⟩
    · rw [scanCount_append, scanCount_append, htm]
      simp [scanCount]
    · rw [hd1, hd]

/-- C8, counterexample.  With an open drive, an audio disc and no disc change, two
calls scan twice when the scan fails each time (no Track Table is left), and
do not scan at all when a Track Table exists already. -/
theorem refresh_twice_counterexample :
    (refresh_trackinfo badTocEnv true initialSession).2.pcdrom_drive =
      some { device := "/dev/sr0".toList, bigendianp := 0 } ∧
    badTocEnv.discmode = DiscMode.CD_DA ∧ badTocEnv.media_changed = false ∧
    scanCount
      ((refresh_trackinfo badTocEnv true (refresh_trackinfo badTocEnv true initialSession).2).1 ++
       (refresh_trackinfo badTocEnv true (refresh_trackinfo badTocEnv true
          (refresh_trackinfo badTocEnv true initialSession).2).2).1) = 2 ∧
    (refresh_trackinfo exampleEnv true initialSession).2.pcdrom_drive =
      some { device := "/dev/sr0".toList, bigendianp := 0 } ∧
    exampleEnv.discmode = DiscMode.CD_DA ∧ exampleEnv.media_changed = false ∧
    scanCount
      ((refresh_trackinfo exampleEnv true (refresh_trackinfo exampleEnv true initialSession).2).1 ++
       (refresh_trackinfo exampleEnv true (refresh_trackinfo exampleEnv true
          (refresh_trackinfo exampleEnv true initialSession).2).2).1) = 0 := by
  decide

/-- C8, amended.  With an open drive and disc mode audio or mixed, `refresh_trackinfo`
scans exactly when there is no Track Table or the media changed, at most once
per call, and otherwise leaves drive handle and Track Table unchanged.  Two calls
without a disc change scan exactly once in total when the first call starts
without a Track Table and leaves one; a media change reported to the second
call makes it scan exactly once. -/
theorem refresh_scans_once (env : Env) (w : Bool) (s : Session) (d : Drive)
    (hd : s.pcdrom_drive = some d)
    (hmode : env.discmode = DiscMode.CD_DA ∨ env.discmode = DiscMode.CD_MIXED) :
    scanCount (refresh_trackinfo env w s).1 =
      (if s.trackinfo = none ∨ env.media_changed = true then 1 else 0) ∧
    (¬ (s.trackinfo = none ∨ env.media_changed = true) →
      (refresh_trackinfo env w s).2.pcdrom_drive = s.pcdrom_drive ∧
      (refresh_trackinfo env w s).2.trackinfo = s.trackinfo) ∧
    ∀ (env2 : Env) (w2 : Bool),
      env2.discmode = DiscMode.CD_DA ∨ env2.discmode = DiscMode.CD_MIXED →
      (env2.media_changed = false → s.trackinfo = none →
        (refresh_trackinfo env w s).2.trackinfo ≠ none →
        scanCount ((refresh_trackinfo env w s).1 ++
          (refresh_trackinfo env2 w2 (refresh_trackinfo env w s).2).1) = 1) ∧
      (env2.media_changed = true →
        scanCount (refresh_trackinfo env2 w2 (refresh_trackinfo env w s).2).1 = 1) := by
  obtain ⟨h1, h2⟩ := refresh_scan env w s d hd hmode
  have hdrive : ∃ d2, (refresh_trackinfo env w s).2.pcdrom_drive = some d2 := by
    by_cases hc : s.trackinfo = none ∨ env.media_changed = true
    · exact Option.isSome_iff_exists.mp (h1 hc).2
    · exact ⟨d, by rw [(h2 hc).2.1, hd]⟩
  refine ⟨?_, fun hc => (h2 hc).2, ?_⟩
  · by_cases hc : s.trackinfo = none ∨ env.media_changed = true
    · rw [if_pos hc]
      exact (h1 hc).1
    · rw [if_neg hc]
      exact (h2 hc).1
  · intro env2 w2 hmode2
    obtain ⟨d2, hd2⟩ := hdrive
    obtain ⟨g1, g2⟩ := refresh_scan env2 w2 (refresh_trackinfo env w s).2 d2 hd2 hmode2
    constructor
    · intro hmc hnone hsome
      rw [scanCount_append, (h1 (Or.inl hnone)).1, (g2 _).1]
      intro hh
      rcases hh with hh | hh
      · exact hsome hh
      · rw [hmc] at hh
        cases hh
    · intro hmc
      exact (g1 (Or.inr hmc)).1

/-- C8, witness: the example disc is put in after a scan that failed. -/
theorem refresh_scans_once_witness :
    scanCount (refresh_trackinfo exampleEnv true
        (refresh_trackinfo badTocEnv true initialSession).2).1 =
      (if (refresh_trackinfo badTocEnv true initialSession).2.trackinfo = none ∨
          exampleEnv.media_changed = true then 1 else 0) ∧
    (¬ ((refresh_trackinfo badTocEnv true initialSession).2.trackinfo = none ∨
          exampleEnv.media_changed = true) →
      (refresh_trackinfo exampleEnv true
        (refresh_trackinfo badTocEnv true initialSession).2).2.pcdrom_drive =
        (refresh_trackinfo badTocEnv true initialSession).2.pcdrom_drive ∧
      (refresh_trackinfo exampleEnv true
        (refresh_trackinfo badTocEnv true initialSession).2).2.trackinfo =
        (refresh_trackinfo badTocEnv true initialSession).2.trackinfo) ∧
    ∀ (env2 : Env) (w2 : Bool),
      env2.discmode = DiscMode.CD_DA ∨ env2.discmode = DiscMode.CD_MIXED →
      (env2.media_changed = false →
        (refresh_trackinfo badTocEnv true initialSession).2.trackinfo = none →
        (refresh_trackinfo exampleEnv true
          (refresh_trackinfo badTocEnv true initialSession).2).2.trackinfo ≠ none →
        scanCount ((refresh_trackinfo exampleEnv true
            (refresh_trackinfo badTocEnv true initialSession).2).1 ++
          (refresh_trackinfo env2 w2 (refresh_trackinfo exampleEnv true
            (refresh_trackinfo badTocEnv true initialSession).2).2).1) = 1) ∧
      (env2.media_changed = true →
        scanCount (refresh_trackinfo env2 w2 (refresh_trackinfo exampleEnv true
          (refresh_trackinfo badTocEnv true initialSession).2).2).1 = 1) :=
  refresh_scans_once exampleEnv true (refresh_trackinfo badTocEnv true initialSession).2
    { device := "/dev/sr0".toList, bigendianp := 0 } (by decide) (by decide)

theorem digitChar_isdigit (d : Nat) (h : d < 10) :
    isdigit (Nat.digitChar d) = true ∧ (Nat.digitChar d).toNat - 48 = d := by
  interval_cases d <;> decide

theorem isdigit_not_other (c : Char) (h : isdigit c = true) :
    isspace c = false ∧ (c == '-') = false ∧ (c == '+') = false := by
  simp only [isdigit, decide_eq_true_eq] at h
  refine ⟨?_, ?_, ?_⟩
  · simp only [isspace, Bool.or_eq_false_iff, beq_eq_false_iff_ne, ne_eq]
    refine ⟨⟨⟨⟨⟨?_, ?_⟩, ?_⟩, ?_⟩, ?_⟩, ?_⟩ <;> (rintro rfl; revert h; decide)
  · simp only [beq_eq_false_iff_ne, ne_eq]
    rintro rfl; revert h; decide
  · simp only [beq_eq_false_iff_ne, ne_eq]
    rintro rfl; revert h; decide

theorem scan_digits_append (l1 l2 : CStr) (h : ∀ c ∈ l1, isdigit c = true) :
    ∀ acc, scan_digits (l1 ++ l2) acc = scan_digits l2 (scan_digits l1 acc) := by
  induction l1 with
  | nil => intro acc; rfl
  | cons c cs ih =>
    intro acc
    have hc : isdigit c = true := h c (List.mem_cons_self _ _)
    simp only [List.cons_append, scan_digits, hc, if_true]
    exact ih (fun x hx => h x (List.mem_cons_of_mem _ hx)) _

theorem toDigitsCore_append (fuel : Nat) :
    ∀ (n : Nat) (ds : List Char),
      Nat.toDigitsCore 10 fuel n ds = Nat.toDigitsCore 10 fuel n [] ++ ds := by
  induction fuel with
  | zero => intro n ds; simp [Nat.toDigitsCore]
  | succ f ih =>
    intro n ds
    simp only [Nat.toDigitsCore]
    split
    · simp
    · rw [ih (n / 10) (_ :: ds), ih (n / 10) [_]]
      simp

theorem toDigitsCore_scan (fuel : Nat) :
    ∀ n : Nat, n < fuel →
      (∀ c ∈ Nat.toDigitsCore 10 fuel n [], isdigit c = true) ∧
      Nat.toDigitsCore 10 fuel n [] ≠ [] ∧
      scan_digits (Nat.toDigitsCore 10 fuel n []) 0 = n := by
  induction fuel with
  | zero => intro n h; omega
  | succ f ih =>
    intro n hn
    have hd := digitChar_isdigit (n % 10) (Nat.mod_lt _ (by decide))
    simp only [Nat.toDigitsCore]
    split
    · rename_i h0
      refine ⟨?_, by simp, ?_⟩
      · intro c hc
        simp only [List.mem_singleton] at hc
        rw [hc]; exact hd.1
      · simp only [scan_digits, hd.1, if_true, hd.2]
        omega
    · rename_i h0
      have hlt : n / 10 < f := by omega
      obtain ⟨i1, i2, i3⟩ := ih (n / 10) hlt
      rw [toDigitsCore_append]
      refine ⟨?_, by simp, ?_⟩
      · intro c hc
        simp only [List.mem_append, List.mem_singleton] at hc
        rcases hc with hc | hc
        · exact i1 c hc
        · rw [hc]; exact hd.1
      · rw [scan_digits_append _ _ i1, i3]
        simp only [scan_digits, hd.1, if_true, hd.2]
        omega

theorem store_int_of_range (x : Int) (h0 : -2147483648 ≤ x) (h1 : x < 2147483648) :
    store_int x = x := by
  unfold store_int LONG_MAX
  rw [if_neg (by omega), if_neg (by omega)]
  exact wrap32_of_range x h0 h1

theorem sscanf_d_toDigits (n : Nat) (h : n < 2 ^ 31) :
    sscanf_d (Nat.toDigits 10 n) = some (n : Int) := by
  obtain ⟨h1, h2, h3⟩ := toDigitsCore_scan (n + 1) n (Nat.lt_succ_self n)
  have hw : store_int (n : Int) = n := store_int_of_range _ (by omega) (by norm_num at h; omega)
  unfold Nat.toDigits
  cases hl : Nat.toDigitsCore 10 (n + 1) n [] with
  | nil => exact absurd hl h2
  | cons c cs =>
    rw [hl] at h1 h3
    have hc : isdigit c = true := h1 c (List.mem_cons_self _ _)
    obtain ⟨g1, g2, g3⟩ := isdigit_not_other c hc
    simp only [sscanf_d, skip_space, g1, g2, g3, hc, Bool.false_eq_true, if_false, if_true, h3, hw]

/-- C9.  For every `n < 2 ^ 31` the name "cdda://?" followed by the decimal digits of
`n` parses to `n`. -/
theorem parse_roundtrip (n : Nat) (h : n < 2 ^ 31) :
    find_trackno_from_filename ("cdda://?".toList ++ (toString n).toList) = (n : Int) := by
  have hp : "cdda://?".toList = ['c', 'd', 'd', 'a', ':', '/', '/', '?'] := rfl
  have hr : (toString n).toList = Nat.toDigits 10 n := rfl
  rw [hp, hr]
  simp [find_trackno_from_filename, strncmp_eq, sscanf_d_toDigits n h]

/-- C9, witness: the name "cdda://?7". -/
theorem parse_roundtrip_witness :
    find_trackno_from_filename ("cdda://?".toList ++ (toString 7).toList) = ((7 : Nat) : Int) ∧
    "cdda://?".toList ++ (toString 7).toList = "cdda://?7".toList :=
  ⟨parse_roundtrip 7 (by decide), by decide⟩

theorem strncmp_eq_iff_take (n : Nat) :
    ∀ a b : CStr, strncmp_eq n a b = true ↔ a.take n = b.take n := by
  induction n with
  | zero => intro a b; simp [strncmp_eq]
  | succ n ih =>
    intro a b
    cases a with
    | nil => cases b <;> simp [strncmp_eq]
    | cons x xs =>
      cases b with
      | nil => simp [strncmp_eq]
      | cons y ys => simp [strncmp_eq, ih xs ys]

/-- C10, counterexample.  Discovery accepts "cdda://?abc" and "cdda://disc"; the
parser reads track 2 from "cdda://?2abc" and from "cdda://? +2", and play starts
track 2 for "cdda://?2abc". -/
theorem naming_forms_counterexample :
    cdaudio_is_our_file "cdda://?abc".toList = true ∧
    cdaudio_is_our_file "cdda://disc".toList = true ∧
    find_trackno_from_filename "cdda://?2abc".toList = 2 ∧
    find_trackno_from_filename "cdda://? +2".toList = 2 ∧
    (cdaudio_play exampleEnv initialSession "cdda://?2abc".toList 0 (-1) false
      [⟨true, [Cmd.stop]⟩]).ret = some true ∧
    Event.read 1000 37 ∈ (cdaudio_play exampleEnv initialSession "cdda://?2abc".toList 0 (-1) false
      [⟨true, [Cmd.stop]⟩]).events := by
  decide

theorem skip_space_split (r : CStr) :
    ∃ ws : CStr, r = ws ++ skip_space r ∧ ∀ c ∈ ws, isspace c = true := by
  induction r with
  | nil => exact ⟨[], rfl, by simp⟩
  | cons c cs ih =>
    by_cases hc : isspace c = true
    · obtain ⟨ws, h1, h2⟩ := ih
      refine ⟨c :: ws, ?_, ?_⟩
      · simp only [skip_space, hc, if_true, List.cons_append]
        rw [← h1]
      · intro x hx
        rcases List.mem_cons.mp hx with rfl | hx
        · exact hc
        · exact h2 x hx
    · exact ⟨[], by simp [skip_space, hc], by simp⟩

theorem skip_space_append (ws y : CStr) (h : ∀ c ∈ ws, isspace c = true) :
    skip_space (ws ++ y) = skip_space y := by
  induction ws with
  | nil => rfl
  | cons c cs ih =>
    have hc : isspace c = true := h c (List.mem_cons_self _ _)
    simp only [List.cons_append, skip_space, hc, if_true]
    exact ih (fun x hx => h x (List.mem_cons_of_mem _ hx))

theorem sscanf_d_some_form (r : CStr) (v : Int) (h : sscanf_d r = some v) :
    ∃ (ws sign : CStr) (d : Char) (rest : CStr), r = ws ++ sign ++ d :: rest ∧
      (∀ c ∈ ws, isspace c = true) ∧ (sign = [] ∨ sign = ['+'] ∨ sign = ['-']) ∧
      isdigit d = true := by
  obtain ⟨ws, h1, h2⟩ := skip_space_split r
  unfold sscanf_d at h
  cases hs : skip_space r with
  | nil => simp [hs] at h
  | cons c cs =>
    rw [hs] at h h1
    simp only at h
    by_cases hm : (c == '-') = true
    · simp only [hm, if_true] at h
      cases cs with
      | nil => simp at h
      | cons d ds =>
        simp only at h
        by_cases hd : isdigit d = true
        · have hc : c = '-' := by simpa using hm
          exact ⟨ws, ['-'], d, ds, by rw [h1, hc]; simp, h2, Or.inr (Or.inr rfl), hd⟩
        · simp [hd] at h
    · simp only [hm, Bool.false_eq_true, if_false] at h
      by_cases hp : (c == '+') = true
      · simp only [hp, if_true] at h
        cases cs with
        | nil => simp at h
        | cons d ds =>
          simp only at h
          by_cases hd : isdigit d = true
          · have hc : c = '+' := by simpa using hp
            exact ⟨ws, ['+'], d, ds, by rw [h1, hc]; simp, h2, Or.inr (Or.inl rfl), hd⟩
          · simp [hd] at h
      · simp only [hp, Bool.false_eq_true, if_false] at h
        by_cases hd : isdigit c = true
        · exact ⟨ws, [], c, cs, by rw [h1]; simp, h2, Or.inl rfl, hd⟩
        · simp [hd] at h

theorem find_trackno_of_not_form (name : CStr) (h : ¬ trackForm name) :
    find_trackno_from_filename name = -1 := by
  unfold find_trackno_from_filename
  by_cases hp : strncmp_eq 8 name "cdda://?".toList = true
  · simp only [hp, Bool.not_true, Bool.false_eq_true, if_false]
    cases hs : sscanf_d (List.drop 8 name) with
    | none => rfl
    | some v =>
      exfalso
      apply h
      obtain ⟨ws, sign, d, rest, e1, e2, e3, e4⟩ := sscanf_d_some_form _ v hs
      refine ⟨ws, sign, d, rest, ?_, e2, e3, e4⟩
      have ht : name.take 8 = "cdda://?".toList := by
        have := (strncmp_eq_iff_take 8 name "cdda://?".toList).mp hp
        rw [this]
        rfl
      calc name = name.take 8 ++ name.drop 8 := (List.take_append_drop 8 name).symm
        _ = "cdda://?".toList ++ ws ++ sign ++ d :: rest := by
          rw [ht, e1]
          simp [List.append_assoc]
  · have hp2 : strncmp_eq 8 name "cdda://?".toList = false := by simpa using hp
    rw [hp2]
    rfl

theorem scan_digits_eq_foldl (ds : CStr) (h : ∀ c ∈ ds, isdigit c = true) :
    ∀ acc, scan_digits ds acc = ds.foldl (fun acc c => acc * 10 + (c.toNat - 48)) acc := by
  induction ds with
  | nil => intro acc; rfl
  | cons c cs ih =>
    intro acc
    have hc : isdigit c = true := h c (List.mem_cons_self _ _)
    simp only [scan_digits, hc, if_true, List.foldl_cons]
    exact ih (fun x hx => h x (List.mem_cons_of_mem _ hx)) _

theorem scan_digits_stop (rest : CStr) (h : ∀ c r, rest = c :: r → isdigit c = false)
    (acc : Nat) : scan_digits rest acc = acc := by
  cases rest with
  | nil => rfl
  | cons c r => simp [scan_digits, h c r rfl]

theorem scan_digits_run (ds rest : CStr) (h : ∀ c ∈ ds, isdigit c = true)
    (hr : ∀ c r, rest = c :: r → isdigit c = false) :
    scan_digits (ds ++ rest) 0 = decimalValue ds := by
  rw [scan_digits_append ds rest h, scan_digits_stop rest hr, scan_digits_eq_foldl ds h]
  rfl

/-- The parser on a name of the accepted form: white space and sign are read, the
digits give the value, the rest is ignored. -/
theorem find_trackno_of_form (ws sign ds rest : CStr)
    (hws : ∀ c ∈ ws, isspace c = true) (hsign : sign = [] ∨ sign = ['+'] ∨ sign = ['-'])
    (hne : ds ≠ []) (hds : ∀ c ∈ ds, isdigit c = true)
    (hrest : ∀ c r, rest = c :: r → isdigit c = false) (hval : decimalValue ds < 2 ^ 31) :
    find_trackno_from_filename ("cdda://?".toList ++ ws ++ sign ++ ds ++ rest) =
      if sign = ['-'] then -(decimalValue ds : Int) else (decimalValue ds : Int) := by
  have hp : "cdda://?".toList = ['c', 'd', 'd', 'a', ':', '/', '/', '?'] := rfl
  have hrun := scan_digits_run ds rest hds hrest
  cases ds with
  | nil => exact absurd rfl hne
  | cons d ds2 =>
    have hd : isdigit d = true := hds d (List.mem_cons_self _ _)
    obtain ⟨g1, g2, g3⟩ := isdigit_not_other d hd
    have hpos : store_int (decimalValue (d :: ds2) : Int) = decimalValue (d :: ds2) :=
      store_int_of_range _ (by omega) (by norm_num at hval; omega)
    have hneg : store_int (-(decimalValue (d :: ds2) : Int)) = -(decimalValue (d :: ds2) : Int) :=
      store_int_of_range _ (by norm_num at hval; omega) (by omega)
    have hdrop : List.drop 8 ("cdda://?".toList ++ ws ++ sign ++ (d :: ds2) ++ rest) =
        ws ++ (sign ++ (d :: (ds2 ++ rest))) := by
      rw [hp]
      simp [List.append_assoc]
    have hpre : strncmp_eq 8 ("cdda://?".toList ++ ws ++ sign ++ (d :: ds2) ++ rest)
        "cdda://?".toList = true := by
      rw [hp]
      simp [strncmp_eq]
    unfold find_trackno_from_filename
    rw [hpre, hdrop]
    simp only [Bool.not_true, Bool.false_eq_true, if_false]
    unfold sscanf_d
    rw [skip_space_append ws _ hws]
    have hrun2 : scan_digits (d :: (ds2 ++ rest)) 0 = decimalValue (d :: ds2) := hrun
    rcases hsign with rfl | rfl | rfl
    · simp only [List.nil_append, skip_space, g1, Bool.false_eq_true, if_false, g2, g3, hd,
        if_true, hrun2, hpos]
      simp
    · have e1 : isspace '+' = false := by decide
      have e2 : ('+' == '-') = false := by decide
      have e3 : ('+' == '+') = true := by decide
      simp only [List.singleton_append, skip_space, e1, Bool.false_eq_true, if_false, e2, e3,
        if_true, hd, hrun2, hpos]
      simp [hd, hrun2, hpos]
    · have e1 : isspace '-' = false := by decide
      have e3 : ('-' == '-') = true := by decide
      simp only [List.singleton_append, skip_space, e1, Bool.false_eq_true, if_false, e3,
        if_true, hd, hrun2, hneg]
      simp [hd, hrun2, hneg]

theorem sscanf_d_of_form (ws sign : CStr) (d : Char) (rest : CStr)
    (hws : ∀ c ∈ ws, isspace c = true) (hsign : sign = [] ∨ sign = ['+'] ∨ sign = ['-'])
    (hd : isdigit d = true) : (sscanf_d (ws ++ sign ++ d :: rest)).isSome = true := by
  obtain ⟨g1, g2, g3⟩ := isdigit_not_other d hd
  unfold sscanf_d
  rw [List.append_assoc, skip_space_append ws _ hws]
  rcases hsign with rfl | rfl | rfl
  · simp [skip_space, g1, g2, g3, hd]
  · have e1 : isspace '+' = false := by decide
    simp [skip_space, e1, hd]
  · have e1 : isspace '-' = false := by decide
    simp [skip_space, e1, hd]

theorem trackForm_iff (name : CStr) :
    trackForm name ↔
      name.take 8 = "cdda://?".toList ∧ (sscanf_d (name.drop 8)).isSome = true := by
  have hp : "cdda://?".toList = ['c', 'd', 'd', 'a', ':', '/', '/', '?'] := rfl
  constructor
  · rintro ⟨ws, sign, d, rest, e, hws, hsign, hd⟩
    have hdrop : name.drop 8 = ws ++ sign ++ d :: rest := by
      rw [e, hp]; simp [List.append_assoc]
    have htake : name.take 8 = "cdda://?".toList := by
      rw [e, hp]; simp [List.append_assoc]
    exact ⟨htake, by rw [hdrop]; exact sscanf_d_of_form ws sign d rest hws hsign hd⟩
  · rintro ⟨ht, hs⟩
    cases hv : sscanf_d (name.drop 8) with
    | none => rw [hv] at hs; simp at hs
    | some v =>
      obtain ⟨ws, sign, d, rest, e1, e2, e3, e4⟩ := sscanf_d_some_form _ v hv
      refine ⟨ws, sign, d, rest, ?_, e2, e3, e4⟩
      calc name = name.take 8 ++ name.drop 8 := (List.take_append_drop 8 name).symm
        _ = "cdda://?".toList ++ ws ++ sign ++ d :: rest := by
          rw [ht, e1]
          simp [List.append_assoc]

/-- C10, amended.  Discovery answers "ours" exactly for the names that begin with
"cdda://"; every other name is "not ours".  The track parser accepts exactly the
names made of "cdda://?", optional white space, an optional sign and at least
one decimal digit, with any text after the digits (these are the names on which
the `sscanf` call after the prefix returns 1): every other name fails with
-1 (so "cdda://?abc", "cdda://", "cdda://?+abc", "cdda://?-" and "cdda://? x" fail),
and an accepted name gives the signed value of its digits, the text after them
being ignored.  Whenever the parser gives a negative number, play with a Track
Table reports the invalid URI, returns false and leaves the session as it was. -/
theorem naming_forms (name : CStr) :
    (cdaudio_is_our_file name = true ↔ name.take 7 = "cdda://".toList) ∧
    (¬ trackForm name → find_trackno_from_filename name = -1) ∧
    (name.take 8 ≠ "cdda://?".toList → find_trackno_from_filename name = -1) ∧
    (∀ (ws sign ds rest : CStr), name = "cdda://?".toList ++ ws ++ sign ++ ds ++ rest →
      (∀ c ∈ ws, isspace c = true) → (sign = [] ∨ sign = ['+'] ∨ sign = ['-']) →
      ds ≠ [] → (∀ c ∈ ds, isdigit c = true) →
      (∀ c r, rest = c :: r → isdigit c = false) → decimalValue ds < 2 ^ 31 →
      find_trackno_from_filename name =
        if sign = ['-'] then -(decimalValue ds : Int) else (decimalValue ds : Int)) ∧
    (find_trackno_from_filename "cdda://?abc".toList = -1 ∧
      find_trackno_from_filename "cdda://".toList = -1 ∧
      find_trackno_from_filename "cdda://?+abc".toList = -1 ∧
      find_trackno_from_filename "cdda://?-".toList = -1 ∧
      find_trackno_from_filename "cdda://? x".toList = -1) ∧
    (∀ (env : Env) (s : Session) (tab : List trackinfo_t) (start stop : Int) (pause : Bool)
        (ticks : List Tick), s.trackinfo = some tab → find_trackno_from_filename name < 0 →
      cdaudio_play env s name start stop pause ticks =
        { events := [Event.error ("Invalid URI " ++ String.mk name ++ ".")], session := s,
          ret := some false }) ∧
    (trackForm name ↔
      name.take 8 = "cdda://?".toList ∧ (sscanf_d (name.drop 8)).isSome = true) := by
  have h7 : "cdda://".toList = ['c', 'd', 'd', 'a', ':', '/', '/'] := rfl
  have h8 : "cdda://?".toList = ['c', 'd', 'd', 'a', ':', '/', '/', '?'] := rfl
  refine ⟨?_, find_trackno_of_not_form name, ?_, ?_, by decide, ?_, trackForm_iff name⟩
  · unfold cdaudio_is_our_file
    rw [strncmp_eq_iff_take, h7]
    rfl
  · intro h
    unfold find_trackno_from_filename
    rw [h8] at h ⊢
    have : strncmp_eq 8 name ['c', 'd', 'd', 'a', ':', '/', '/', '?'] = false := by
      rw [Bool.eq_false_iff, Ne, strncmp_eq_iff_take]
      exact h
    simp [this]
  · intro ws sign ds rest hname hws hsign hne hds hrest hval
    rw [hname]
    exact find_trackno_of_form ws sign ds rest hws hsign hne hds hrest hval
  · intro env s tab start stop pause ticks htab hneg
    unfold cdaudio_play
    simp [htab, hneg]

/-- C10, witness: the names "audio.ogg", "cdda://? +2abc" and "cdda://?abc". -/
theorem naming_forms_witness :
    find_trackno_from_filename "audio.ogg".toList = -1 ∧
    find_trackno_from_filename "cdda://? +2abc".toList =
      (if ['+'] = ['-'] then -(decimalValue ['2'] : Int) else (decimalValue ['2'] : Int)) ∧
    cdaudio_play exampleEnv (refresh_trackinfo exampleEnv true initialSession).2
        "cdda://?abc".toList 0 (-1) false [] =
      { events := [Event.error ("Invalid URI " ++ String.mk "cdda://?abc".toList ++ ".")],
        session := (refresh_trackinfo exampleEnv true initialSession).2, ret := some false } :=
  ⟨(naming_forms "audio.ogg".toList).2.2.1 (by decide),
   (naming_forms "cdda://? +2abc".toList).2.2.2.1 [' '] ['+'] ['2'] "abc".toList (by decide)
     (by decide) (by decide) (by decide) (by decide)
     (by intro c r h; injection h with h1 _; subst h1; decide) (by decide),
   (naming_forms "cdda://?abc".toList).2.2.2.2.2.1 exampleEnv
     (refresh_trackinfo exampleEnv true initialSession).2
     ((refresh_trackinfo exampleEnv true initialSession).2.trackinfo.getD []) 0 (-1) false []
     (by decide) (by decide)⟩

/-- C11.  For sector bounds `startlsn ≤ endlsn` with `(endlsn - startlsn + 1) * 1000` below
`2 ^ 31`, `calculate_track_length` is the exact quotient
`(endlsn - startlsn + 1) * 1000 / 75`, and the product is not changed by the
reduction to 32 bits. -/
theorem track_length_exact (startlsn endlsn : Int) (h1 : startlsn ≤ endlsn)
    (h2 : (endlsn - startlsn + 1) * 1000 < 2 ^ 31) :
    calculate_track_length startlsn endlsn = (endlsn - startlsn + 1) * 1000 / 75 ∧
    wrap32 ((endlsn - startlsn + 1) * 1000) = (endlsn - startlsn + 1) * 1000 := by
  have hw : wrap32 ((endlsn - startlsn + 1) * 1000) = (endlsn - startlsn + 1) * 1000 :=
    wrap32_of_range _ (by omega) (by norm_num at h2; omega)
  refine ⟨?_, hw⟩
  unfold calculate_track_length
  rw [hw]
  exact cdiv_of_nonneg _ _ (by omega) (by decide)

/-- C11, witness: the track spanning the sectors 1000 to 1999. -/
theorem track_length_exact_witness :
    calculate_track_length 1000 1999 = (1999 - 1000 + 1) * 1000 / 75 ∧
    wrap32 ((1999 - 1000 + 1) * 1000) = (1999 - 1000 + 1) * 1000 :=
  track_length_exact 1000 1999 (by decide) (by decide)

/-- C13.  With a Track Table, a play request that fails a precondition (negative
track number from the parser, track outside `firsttrackno .. lasttrackno`, data
track, or sink that does not open) returns false, leaves the whole session as
it was (`playing`, pending seek, drive handle, Track Table), and causes exactly
one error event, the one of the first precondition that fails, preceded only by
the `open_audio` call when it is the sink that fails: no read, write, pause or
parameter announcement. -/
theorem play_precondition_failure (env : Env) (s : Session) (tab : List trackinfo_t)
    (name : CStr) (start stop : Int) (pause : Bool) (ticks : List Tick)
    (htab : s.trackinfo = some tab)
    (hfail : find_trackno_from_filename name < 0 ∨
      find_trackno_from_filename name < s.firsttrackno ∨
      find_trackno_from_filename name > s.lasttrackno ∨
      env.track_audiop (find_trackno_from_filename name) = false ∨
      env.open_audio_ok = false) :
    (cdaudio_play env s name start stop pause ticks).ret = some false ∧
    (cdaudio_play env s name start stop pause ticks).session = s ∧
    (∃ msg, (cdaudio_play env s name start stop pause ticks).events = [Event.error msg] ∨
      (cdaudio_play env s name start stop pause ticks).events =
        [Event.open_audio, Event.error msg]) ∧
    (find_trackno_from_filename name < 0 →
      (cdaudio_play env s name start stop pause ticks).events =
        [Event.error ("Invalid URI " ++ String.mk name ++ ".")]) ∧
    (0 ≤ find_trackno_from_filename name →
      (find_trackno_from_filename name < s.firsttrackno ∨
        find_trackno_from_filename name > s.lasttrackno) →
      (cdaudio_play env s name start stop pause ticks).events =
        [Event.error ("Track " ++ toString (find_trackno_from_filename name) ++
          " not found.")]) ∧
    (0 ≤ find_trackno_from_filename name → s.firsttrackno ≤ find_trackno_from_filename name →
      find_trackno_from_filename name ≤ s.lasttrackno →
      env.track_audiop (find_trackno_from_filename name) = false →
      (cdaudio_play env s name start stop pause ticks).events =
        [Event.error ("Track " ++ toString (find_trackno_from_filename name) ++
          " is a data track.")]) ∧
    (0 ≤ find_trackno_from_filename name → s.firsttrackno ≤ find_trackno_from_filename name →
      find_trackno_from_filename name ≤ s.lasttrackno →
      env.track_audiop (find_trackno_from_filename name) = true →
      (cdaudio_play env s name start stop pause ticks).events =
        [Event.open_audio, Event.error "Failed to open audio output."]) := by
  unfold cdaudio_play
  simp only [htab, Option.isNone_some, Bool.false_eq_true, if_false]
  by_cases c1 : find_trackno_from_filename name < 0
  · simp [c1]
  · by_cases c2 : find_trackno_from_filename name < s.firsttrackno ∨
        find_trackno_from_filename name > s.lasttrackno
    · simp [c1, c2]
      refine ⟨?_, ?_⟩ <;> (intro _ h1 h2; omega)
    · by_cases c3 : env.track_audiop (find_trackno_from_filename name) = false
      · simp [c1, c2, c3]
      · have c4 : env.open_audio_ok = false := by
          rcases hfail with h | h | h | h | h
          · exact absurd h c1
          · exact absurd (Or.inl h) c2
          · exact absurd (Or.inr h) c2
          · exact absurd h c3
          · exact h
        simp [c1, c2, c3, c4]

/-- C13, witness: track 9 is requested from the scanned example disc. -/
theorem play_precondition_failure_witness :
    (cdaudio_play exampleEnv (refresh_trackinfo exampleEnv true initialSession).2
      "cdda://?9".toList 0 (-1) true [okTick]).ret = some false ∧
    (cdaudio_play exampleEnv (refresh_trackinfo exampleEnv true initialSession).2
      "cdda://?9".toList 0 (-1) true [okTick]).session =
      (refresh_trackinfo exampleEnv true initialSession).2 ∧
    (cdaudio_play exampleEnv (refresh_trackinfo exampleEnv true initialSession).2
      "cdda://?9".toList 0 (-1) true [okTick]).events = [Event.error "Track 9 not found."] :=
  have h := play_precondition_failure exampleEnv
    (refresh_trackinfo exampleEnv true initialSession).2
    ((refresh_trackinfo exampleEnv true initialSession).2.trackinfo.getD [])
    "cdda://?9".toList 0 (-1) true [okTick] (by decide) (Or.inr (Or.inr (Or.inl (by decide))))
  ⟨h.1, h.2.1, h.2.2.2.2.1 (by decide) (Or.inr (by decide))⟩

theorem entry_set_self (env : Env) (tab : List trackinfo_t) (t : Int) (d : trackinfo_t)
    (h : t.toNat < tab.length) : entry env (tab.set t.toNat d) t = d := by
  simp [entry, h]

theorem entry_set_ne (env : Env) (tab : List trackinfo_t) (t u : Int) (d : trackinfo_t)
    (h : t.toNat ≠ u.toNat) : entry env (tab.set t.toNat d) u = entry env tab u := by
  simp [entry, List.getElem?_set_ne h]

theorem flatMap_single_eq_map (f : Nat → Int) (l : List Nat) :
    (l.flatMap fun a => [f a]) = l.map f := by
  induction l with
  | nil => rfl
  | cons a l ih => simp [List.flatMap_cons, ih]

theorem trackRange_eq (first last : Int) :
    trackRange first last =
      (List.range (last + 1 - first).toNat).map (fun i : Nat => first + (i : Int)) := by
  unfold trackRange
  simp [List.map_flatMap, flatMap_single_eq_map]

theorem mem_trackRange (first last t : Int) :
    t ∈ trackRange first last ↔ first ≤ t ∧ t ≤ last := by
  rw [trackRange_eq]
  simp only [List.mem_map, List.mem_range]
  constructor
  · rintro ⟨i, hi, rfl⟩
    omega
  · intro h
    exact ⟨(t - first).toNat, by omega, by omega⟩

theorem trackRange_pairwise (first last : Int) (h : 0 ≤ first) :
    (trackRange first last).Pairwise (fun a b => a.toNat ≠ b.toNat) := by
  rw [trackRange_eq, List.pairwise_map]
  refine List.Pairwise.imp ?_ (List.pairwise_lt_range _)
  intro a b hab
  omega

theorem scanCddbTracks_entries (env : Env) :
    ∀ (ts : List Int) (tab : List trackinfo_t),
      ts.Pairwise (fun a b => a.toNat ≠ b.toNat) → (∀ t ∈ ts, t.toNat < tab.length) →
      (scanCddbTracks env ts tab).length = tab.length ∧
      (∀ u : Int, (∀ t ∈ ts, t.toNat ≠ u.toNat) →
        entry env (scanCddbTracks env ts tab) u = entry env tab u) ∧
      (∀ t ∈ ts, entry env (scanCddbTracks env ts tab) t =
        cdaudio_set_strinfo (entry env tab t) (env.cddb.track_artist (t - 1))
          (env.cddb.track_title (t - 1)) env.cddb.disc_genre) := by
  intro ts
  induction ts with
  | nil => intro tab _ _; simp [scanCddbTracks]
  | cons t ts ih =>
    intro tab hp hlen
    rw [List.pairwise_cons] at hp
    have hlen2 : ∀ u ∈ ts, u.toNat < (tab.set t.toNat (cdaudio_set_strinfo (entry env tab t)
        (env.cddb.track_artist (t - 1)) (env.cddb.track_title (t - 1))
        env.cddb.disc_genre)).length := by
      intro u hu
      rw [List.length_set]
      exact hlen u (List.mem_cons_of_mem _ hu)
    obtain ⟨i1, i2, i3⟩ := ih _ hp.2 hlen2
    simp only [scanCddbTracks]
    refine ⟨by rw [i1, List.length_set], ?_, ?_⟩
    · intro u hu
      rw [i2 u (fun x hx => hu x (List.mem_cons_of_mem _ hx)),
        entry_set_ne env tab t u _ (hu t (List.mem_cons_self _ _))]
    · intro u hu
      rcases List.mem_cons.mp hu with rfl | hu
      · rw [i2 u (fun x hx => fun h => hp.1 x hx h.symm),
          entry_set_self env tab u _ (hlen u (List.mem_cons_self _ _))]
      · rw [i3 u hu, entry_set_ne env tab t u _ (hp.1 u hu)]

theorem scanCddb_unusable (env : Env) (first last : Int) (tab : List trackinfo_t)
    (h : lookupUsable env = false) : (scanCddb env first last tab).2 = tab := by
  unfold scanCddb
  unfold lookupUsable at h
  by_cases h1 : env.config.use_cddb = true
  · by_cases h2 : env.cddb.conn_ok = true
    · by_cases h3 : env.cddb.found = -1
      · simp only [h1, h2, h3, if_true, Bool.not_true, Bool.false_eq_true, if_false]
        split <;> rfl
      · by_cases h4 : env.cddb.found = 0
        · simp [h1, h2, h4]
        · cases h5 : env.cddb.read_error with
          | none => simp [h1, h2, h3, h4, h5] at h
          | some e => simp [h1, h2, h3, h4]
    · simp [h1, h2]
  · simp [h1]

theorem scanCddb_usable (env : Env) (first last : Int) (tab : List trackinfo_t)
    (h : lookupUsable env = true) :
    (scanCddb env first last tab).2 =
      scanCddbTracks env (trackRange first last)
        (tab.set 0 (cdaudio_set_strinfo (entry env tab 0) env.cddb.disc_artist
          env.cddb.disc_title env.cddb.disc_genre)) := by
  unfold lookupUsable at h
  simp only [Bool.and_eq_true, decide_eq_true_eq, Option.isNone_iff_eq_none] at h
  obtain ⟨⟨⟨⟨h1, h2⟩, h3⟩, h4⟩, h5⟩ := h
  unfold scanCddb
  simp [h1, h2, h3, h4, h5]

/-- C14, counterexample.  The query reports two matches and the scan still copies
the record into the disc descriptor and into every track descriptor. -/
theorem lookup_counterexample :
    twoMatchEnv.cddb.found = 2 ∧
    (refresh_trackinfo twoMatchEnv true initialSession).2.trackinfo =
      some [{ performer := "Band".toList, name := "Album".toList, genre := "Rock".toList,
              startlsn := 0, endlsn := 2999 },
            { performer := "Band".toList, name := "Song 1".toList, genre := "Rock".toList,
              startlsn := 0, endlsn := 999 },
            { performer := "Band".toList, name := "Song 2".toList, genre := "Rock".toList,
              startlsn := 1000, endlsn := 1999 },
            { performer := "Band".toList, name := "Song 3".toList, genre := "Rock".toList,
              startlsn := 2000, endlsn := 2999 }] := by
  decide

/-- C14, amended.  In the remote-lookup block of the scan (first track at least 1,
table of `last + 1` descriptors): when the lookup gives no usable record (it is
switched off, there is no connection, the query reports an error or zero
matches, or reading the record fails) the table is left as it was; when it gives
one (any number of matches other than zero), descriptor 0 takes the disc
artist, title and genre and track `n` takes the artist and title at position
`n - 1` and the disc genre. -/
theorem lookup_population (env : Env) (first last : Int) (tab : List trackinfo_t)
    (hfirst : 1 ≤ first) (hlast : 0 ≤ last) (hlen : tab.length = (last + 1).toNat) :
    (lookupUsable env = false → (scanCddb env first last tab).2 = tab) ∧
    (lookupUsable env = true →
      entry env (scanCddb env first last tab).2 0 =
        cdaudio_set_strinfo (entry env tab 0) env.cddb.disc_artist env.cddb.disc_title
          env.cddb.disc_genre ∧
      ∀ n, first ≤ n → n ≤ last →
        entry env (scanCddb env first last tab).2 n =
          cdaudio_set_strinfo (entry env tab n) (env.cddb.track_artist (n - 1))
            (env.cddb.track_title (n - 1)) env.cddb.disc_genre) := by
  refine ⟨scanCddb_unusable env first last tab, ?_⟩
  intro h
  rw [scanCddb_usable env first last tab h]
  have hlen0 : (0 : Int).toNat < tab.length := by
    rw [hlen]
    show 0 < (last + 1).toNat
    omega
  obtain ⟨_, i2, i3⟩ := scanCddbTracks_entries env (trackRange first last)
    (tab.set 0 (cdaudio_set_strinfo (entry env tab 0) env.cddb.disc_artist
      env.cddb.disc_title env.cddb.disc_genre))
    (trackRange_pairwise first last (by omega))
    (by
      intro t ht
      rw [List.length_set, hlen]
      have := (mem_trackRange first last t).mp ht
      omega)
  constructor
  · rw [i2 0 (by
      intro t ht
      have := (mem_trackRange first last t).mp ht
      show t.toNat ≠ 0
      omega)]
    exact entry_set_self env tab 0 _ hlen0
  · intro n h1 h2
    rw [i3 n ((mem_trackRange first last n).mpr ⟨h1, h2⟩)]
    have hne : (0 : Int).toNat ≠ n.toNat := by
      show 0 ≠ n.toNat
      omega
    have e := entry_set_ne env tab 0 n (cdaudio_set_strinfo (entry env tab 0)
      env.cddb.disc_artist env.cddb.disc_title env.cddb.disc_genre) hne
    rw [show (0 : Int).toNat = 0 from rfl] at e
    rw [e]

/-- C14, witness: the example disc with a lookup that reports two matches. -/
theorem lookup_population_witness :
    (lookupUsable twoMatchEnv = false →
      (scanCddb twoMatchEnv 1 3 (List.replicate 4 twoMatchEnv.garbage)).2 =
        List.replicate 4 twoMatchEnv.garbage) ∧
    (lookupUsable twoMatchEnv = true →
      entry twoMatchEnv (scanCddb twoMatchEnv 1 3 (List.replicate 4 twoMatchEnv.garbage)).2 0 =
        cdaudio_set_strinfo (entry twoMatchEnv (List.replicate 4 twoMatchEnv.garbage) 0)
          twoMatchEnv.cddb.disc_artist twoMatchEnv.cddb.disc_title twoMatchEnv.cddb.disc_genre ∧
      ∀ n, 1 ≤ n → n ≤ 3 →
        entry twoMatchEnv (scanCddb twoMatchEnv 1 3 (List.replicate 4 twoMatchEnv.garbage)).2 n =
          cdaudio_set_strinfo (entry twoMatchEnv (List.replicate 4 twoMatchEnv.garbage) n)
            (twoMatchEnv.cddb.track_artist (n - 1)) (twoMatchEnv.cddb.track_title (n - 1))
            twoMatchEnv.cddb.disc_genre) :=
  lookup_population twoMatchEnv 1 3 (List.replicate 4 twoMatchEnv.garbage) (by decide)
    (by decide) (by decide)

theorem placeholderTitle_ne_nil (n : Int) : placeholderTitle n ≠ [] := by
  unfold placeholderTitle
  have : ("Track " ++ toString n).toList = 'T' :: ("rack " ++ toString n).toList := by
    show ("Track " ++ toString n).data = 'T' :: ("rack " ++ toString n).data
    rw [String.data_append, String.data_append]
    rfl
  rw [this]
  simp [DEF_STRING_LEN]

theorem scanCdText_entries (env : Env) :
    ∀ (ts : List Int) (tab : List trackinfo_t) (avail : Bool),
      ts.Pairwise (fun a b => a.toNat ≠ b.toNat) → (∀ t ∈ ts, t.toNat < tab.length) →
      (scanCdText env ts tab avail).1.length = tab.length ∧
      (∀ t ∈ ts, (entry env (scanCdText env ts tab avail).1 t).name = textTitle env t) ∧
      (∀ u : Int, (∀ t ∈ ts, t.toNat ≠ u.toNat) →
        entry env (scanCdText env ts tab avail).1 u = entry env tab u) ∧
      (scanCdText env ts tab avail).2 =
        (avail || ts.any (fun t => (trackCdText env t).isSome)) := by
  intro ts
  induction ts with
  | nil => intro tab avail _ _; simp [scanCdText]
  | cons t ts ih =>
    intro tab avail hp hlen
    rw [List.pairwise_cons] at hp
    have ht : t.toNat < tab.length := hlen t (List.mem_cons_self _ _)
    have key : ∀ (d : trackinfo_t) (av : Bool), d.name = textTitle env t →
        (scanCdText env ts (tab.set t.toNat d) av).1.length = tab.length ∧
        (∀ u ∈ t :: ts, (entry env (scanCdText env ts (tab.set t.toNat d) av).1 u).name =
          textTitle env u) ∧
        (∀ u : Int, (∀ x ∈ t :: ts, x.toNat ≠ u.toNat) →
          entry env (scanCdText env ts (tab.set t.toNat d) av).1 u = entry env tab u) ∧
        (scanCdText env ts (tab.set t.toNat d) av).2 =
          (av || ts.any (fun t => (trackCdText env t).isSome)) := by
      intro d av hd
      obtain ⟨i1, i2, i3, i4⟩ := ih (tab.set t.toNat d) av hp.2 (by
        intro u hu
        rw [List.length_set]
        exact hlen u (List.mem_cons_of_mem _ hu))
      refine ⟨by rw [i1, List.length_set], ?_, ?_, i4⟩
      · intro u hu
        rcases List.mem_cons.mp hu with rfl | hu
        · rw [i3 u (fun x hx => fun h => hp.1 x hx h.symm), entry_set_self env tab u d ht, hd]
        · exact i2 u hu
      · intro u hu
        rw [i3 u (fun x hx => hu x (List.mem_cons_of_mem _ hx)),
          entry_set_ne env tab t u d (hu t (List.mem_cons_self _ _))]
    cases hc : trackCdText env t with
    | some c =>
      simp only [scanCdText, hc, List.any_cons, Option.isSome_some, Bool.true_or, Bool.or_true]
      have := key (cdaudio_set_strinfo (entry env tab t) c.performer c.title c.genre) true
        (by simp [textTitle, hc, cdaudio_set_strinfo])
      simpa using this
    | none =>
      simp only [scanCdText, hc, List.any_cons, Option.isSome_none, Bool.false_or]
      exact key _ avail (by simp [textTitle, hc, placeholderTitle])

theorem scanBounds_length (env : Env) :
    ∀ (ts : List Int) (tab : List trackinfo_t) (n : Int),
      (scanBounds env ts tab n).2.1.length = tab.length := by
  intro ts
  induction ts with
  | nil => intro tab n; rfl
  | cons t ts ih =>
    intro tab n
    simp only [scanBounds]
    split
    · simp
    · rw [ih, List.length_set]

theorem discCdText_length (env : Env) (tab : List trackinfo_t) :
    (discCdText env tab).length = tab.length := by
  unfold discCdText
  split
  · split
    · split <;> simp
    · split
      · rfl
      · split <;> simp
  · rfl

/-- A scan that leaves a Track Table went through all of its blocks. -/
theorem scan_cd_table (env : Env) (s : Session) (d : Drive) (tab : List trackinfo_t)
    (hd : s.pcdrom_drive = some d) (hnone : s.trackinfo = none)
    (hres : (scan_cd env s).2.trackinfo = some tab) :
    ∃ tab1 : List trackinfo_t, tab1.length = (env.last_track_num + 1).toNat ∧
      tab = (if (scanCdText env (trackRange env.first_track_num env.last_track_num) tab1 false).2
        then (scanCdText env (trackRange env.first_track_num env.last_track_num) tab1 false).1
        else (scanCddb env env.first_track_num env.last_track_num
          (scanCdText env (trackRange env.first_track_num env.last_track_num) tab1 false).1).2) ∧
      (scan_cd env s).2.firsttrackno = env.first_track_num ∧
      (scan_cd env s).2.lasttrackno = env.last_track_num := by
  by_cases hopen : env.cdda_open_ok = true
  swap
  · simp [scan_cd, hd, hnone, hopen] at hres
  by_cases hvalid : env.first_track_num = CDIO_INVALID_TRACK ∨
      env.last_track_num = CDIO_INVALID_TRACK
  · simp [scan_cd, hd, hnone, hopen, hvalid] at hres
  have hlen := scanBounds_length env (trackRange env.first_track_num env.last_track_num)
    ((List.replicate (env.last_track_num + 1).toNat env.garbage).set 0
      (cdaudio_set_fullinfo
        (entry env (List.replicate (env.last_track_num + 1).toNat env.garbage) 0)
        (env.track_firstsector 0) (env.track_lastsector env.last_track_num)
        (some []) (some []) (some []))) 0
  rcases heq : scanBounds env (trackRange env.first_track_num env.last_track_num)
    ((List.replicate (env.last_track_num + 1).toNat env.garbage).set 0
      (cdaudio_set_fullinfo
        (entry env (List.replicate (env.last_track_num + 1).toNat env.garbage) 0)
        (env.track_firstsector 0) (env.track_lastsector env.last_track_num)
        (some []) (some []) (some []))) 0 with ⟨bad, tabB, n⟩
  rw [heq] at hlen
  cases bad with
  | some b => simp [scan_cd, hd, hnone, hopen, hvalid, heq] at hres
  | none =>
    refine ⟨discCdText env tabB, ?_, ?_, ?_, ?_⟩
    · rw [discCdText_length]
      simpa using hlen
    · by_cases hav : (scanCdText env (trackRange env.first_track_num env.last_track_num)
          (discCdText env tabB) false).2 = true
      · simp [scan_cd, hd, hnone, hopen, hvalid, heq, hav] at hres
        simp [hav, hres]
      · simp [scan_cd, hd, hnone, hopen, hvalid, heq, hav] at hres
        simp [hav, hres]
    · by_cases hav : (scanCdText env (trackRange env.first_track_num env.last_track_num)
          (discCdText env tabB) false).2 = true
      · simp [scan_cd, hd, hnone, hopen, hvalid, heq, hav]
      · simp [scan_cd, hd, hnone, hopen, hvalid, heq, hav]
    · by_cases hav : (scanCdText env (trackRange env.first_track_num env.last_track_num)
          (discCdText env tabB) false).2 = true
      · simp [scan_cd, hd, hnone, hopen, hvalid, heq, hav]
      · simp [scan_cd, hd, hnone, hopen, hvalid, heq, hav]

theorem scanCddb_track_entry (env : Env) (first last : Int) (tab : List trackinfo_t)
    (hfirst : 1 ≤ first) (hlen : tab.length = (last + 1).toNat)
    (h : lookupUsable env = true) (n : Int) (h1 : first ≤ n) (h2 : n ≤ last) :
    (entry env (scanCddb env first last tab).2 n).name =
      g_strlcpy (env.cddb.track_title (n - 1)) := by
  rw [scanCddb_usable env first last tab h]
  obtain ⟨_, _, i3⟩ := scanCddbTracks_entries env (trackRange first last)
    (tab.set 0 (cdaudio_set_strinfo (entry env tab 0) env.cddb.disc_artist
      env.cddb.disc_title env.cddb.disc_genre))
    (trackRange_pairwise first last (by omega))
    (by
      intro t ht
      rw [List.length_set, hlen]
      have := (mem_trackRange first last t).mp ht
      omega)
  rw [i3 n ((mem_trackRange first last n).mpr ⟨h1, h2⟩)]
  rfl

/-- C12, counterexample.  A scan succeeds and leaves empty titles: with disc-text that
has no title field every track title is empty, and with a remote record
without track titles every track title is empty. -/
theorem scan_titles_counterexample :
    (refresh_trackinfo untitledTextEnv true initialSession).2.trackinfo =
      some [{ performer := "Band".toList, name := [], genre := [], startlsn := 0, endlsn := 2999 },
            { performer := "Band".toList, name := [], genre := [], startlsn := 0, endlsn := 999 },
            { performer := "Band".toList, name := [], genre := [], startlsn := 1000,
              endlsn := 1999 },
            { performer := "Band".toList, name := [], genre := [], startlsn := 2000,
              endlsn := 2999 }] ∧
    ((refresh_trackinfo untitledLookupEnv true initialSession).2.trackinfo.map
        (fun tab => tab.map (fun t => t.name))) =
      some ["Album".toList, [], [], []] := by
  decide

/-- C12, amended.  After a successful scan (first track at least 1) the title of
every track `n` in `firsttrackno .. lasttrackno` is: when some track had
disc-text, the disc-text title of `n` (empty when its record has none) or
"Track n" when `n` has no disc-text; else the remote title at position `n - 1`
(empty when missing) when the lookup gave a usable record; else "Track n".  So a
track without disc-text has the non-empty title "Track n" whenever some other
track had disc-text or the lookup gave no usable record. -/
theorem scan_titles (env : Env) (s : Session) (d : Drive) (tab : List trackinfo_t)
    (hd : s.pcdrom_drive = some d) (hnone : s.trackinfo = none)
    (hfirst : 1 ≤ env.first_track_num)
    (hres : (scan_cd env s).2.trackinfo = some tab) :
    (scan_cd env s).2.firsttrackno = env.first_track_num ∧
    (scan_cd env s).2.lasttrackno = env.last_track_num ∧
    ∀ n, env.first_track_num ≤ n → n ≤ env.last_track_num →
      (entry env tab n).name = scannedTitle env n ∧
      (trackCdText env n = none → (cdtextFound env = true ∨ lookupUsable env = false) →
        (entry env tab n).name = placeholderTitle n ∧ (entry env tab n).name ≠ []) := by
  obtain ⟨tab1, hlen1, htab, hf, hl⟩ := scan_cd_table env s d tab hd hnone hres
  refine ⟨hf, hl, ?_⟩
  intro n h1 h2
  have hmem : n ∈ trackRange env.first_track_num env.last_track_num :=
    (mem_trackRange _ _ n).mpr ⟨h1, h2⟩
  obtain ⟨j1, j2, _, j4⟩ := scanCdText_entries env
    (trackRange env.first_track_num env.last_track_num) tab1 false
    (trackRange_pairwise _ _ (by omega))
    (by
      intro t ht
      rw [hlen1]
      have := (mem_trackRange _ _ t).mp ht
      omega)
  have hflag : (scanCdText env (trackRange env.first_track_num env.last_track_num) tab1
      false).2 = cdtextFound env := by
    rw [j4]
    simp [cdtextFound]
  have hname : (entry env tab n).name = scannedTitle env n := by
    rw [htab, hflag]
    unfold scannedTitle
    by_cases hc : cdtextFound env = true
    · simp only [hc, if_true]
      exact j2 n hmem
    · simp only [hc, Bool.false_eq_true, if_false]
      have hnotext : trackCdText env n = none := by
        have hc2 : cdtextFound env = false := by simpa using hc
        unfold cdtextFound at hc2
        rw [List.any_eq_false] at hc2
        have := hc2 n hmem
        simpa using this
      by_cases hu : lookupUsable env = true
      · simp only [hu, if_true]
        exact scanCddb_track_entry env _ _ _ hfirst (by rw [j1, hlen1]) hu n h1 h2
      · have hu2 : lookupUsable env = false := by simpa using hu
        simp only [hu2, Bool.false_eq_true, if_false]
        rw [scanCddb_unusable env _ _ _ hu2, j2 n hmem]
        simp [textTitle, hnotext]
  refine ⟨hname, ?_⟩
  intro hnotext hcase
  have : scannedTitle env n = placeholderTitle n := by
    unfold scannedTitle
    rcases hcase with hc | hu
    · simp [hc, textTitle, hnotext]
    · by_cases hc : cdtextFound env = true
      · simp [hc, textTitle, hnotext]
      · simp [hc, hu]
  rw [hname, this]
  exact ⟨rfl, placeholderTitle_ne_nil n⟩

/-- C12, witness: the example disc, which has neither disc-text nor a remote record. -/
theorem scan_titles_witness :
    (scan_cd exampleEnv (open_cd exampleEnv initialSession).2).2.firsttrackno =
      exampleEnv.first_track_num ∧
    (scan_cd exampleEnv (open_cd exampleEnv initialSession).2).2.lasttrackno =
      exampleEnv.last_track_num ∧
    ∀ n, exampleEnv.first_track_num ≤ n → n ≤ exampleEnv.last_track_num →
      (entry exampleEnv
        ((scan_cd exampleEnv (open_cd exampleEnv initialSession).2).2.trackinfo.getD []) n).name =
        scannedTitle exampleEnv n ∧
      (trackCdText exampleEnv n = none →
        (cdtextFound exampleEnv = true ∨ lookupUsable exampleEnv = false) →
        (entry exampleEnv
          ((scan_cd exampleEnv (open_cd exampleEnv initialSession).2).2.trackinfo.getD [])
            n).name = placeholderTitle n ∧
        (entry exampleEnv
          ((scan_cd exampleEnv (open_cd exampleEnv initialSession).2).2.trackinfo.getD [])
            n).name ≠ []) :=
  scan_titles exampleEnv (open_cd exampleEnv initialSession).2
    { device := "/dev/sr0".toList, bigendianp := -1 }
    ((scan_cd exampleEnv (open_cd exampleEnv initialSession).2).2.trackinfo.getD [])
    (by decide) (by decide) (by decide) (by decide)

theorem serveAll_frame (cmds : List Cmd) (st : PlayState) :
    (serveAll cmds st).2.currlsn = st.currlsn ∧ (serveAll cmds st).2.sectors = st.sectors ∧
    (serveAll cmds st).2.retry_count = st.retry_count ∧
    (serveAll cmds st).2.skip_count = st.skip_count := by
  induction cmds generalizing st with
  | nil => simp [serveAll]
  | cons c cs ih =>
    cases c <;> simp [serveAll, serve, ih]

theorem serveAll_seek_fits (cmds : List Cmd) (st : PlayState)
    (h0 : st.seek_time * 75 < 2 ^ 31)
    (h : ∀ c ∈ cmds, ∀ t, c = Cmd.mseek t → t * 75 < 2 ^ 31) :
    (serveAll cmds st).2.seek_time * 75 < 2 ^ 31 := by
  induction cmds generalizing st with
  | nil => simpa [serveAll] using h0
  | cons c cs ih =>
    have hcs : ∀ c ∈ cs, ∀ t, c = Cmd.mseek t → t * 75 < 2 ^ 31 :=
      fun c hc => h c (List.mem_cons_of_mem _ hc)
    cases c with
    | stop => simpa [serveAll, serve] using ih { st with playing := false } h0 hcs
    | pause f => simpa [serveAll, serve] using ih _ h0 hcs
    | mseek t =>
      simpa [serveAll, serve] using ih { st with seek_time := t }
        (h _ (List.mem_cons_self _ _) t rfl) hcs

theorem applySeek_frame (s : Int) (st : PlayState) :
    (applySeek s st).2.sectors = st.sectors ∧ (applySeek s st).2.playing = st.playing ∧
    (applySeek s st).2.retry_count = st.retry_count ∧
    (applySeek s st).2.skip_count = st.skip_count ∧
    (applySeek s st).2.seek_time < 0 := by
  unfold applySeek
  split
  · simp
  · refine ⟨rfl, rfl, rfl, rfl, ?_⟩
    simp only
    omega

theorem applySeek_lower (s : Int) (st : PlayState) (h1 : s ≤ st.currlsn)
    (h2 : st.seek_time * 75 < 2 ^ 31) : s ≤ (applySeek s st).2.currlsn := by
  unfold applySeek
  split
  · rename_i h
    simp only
    rw [ms_to_sectors _ h h2]
    omega
  · exact h1

theorem recover_next_cases (e : Int) (ok : Bool) (st st2 : PlayState)
    (h : recover e ok st = Recovery.next st2) :
    st2.seek_time = st.seek_time ∧ st2.playing = st.playing ∧
    ((st2.currlsn = st.currlsn + st.sectors ∧ st2.sectors = st.sectors ∧
        st2.retry_count = 0) ∨
     (st2.currlsn = st.currlsn ∧ 16 < st.sectors ∧ st2.sectors = st.sectors / 2 ∧
        st2.retry_count = st.retry_count) ∨
     (st2.currlsn = st.currlsn ∧ st2.sectors = st.sectors ∧ st.retry_count < 10 ∧
        st2.retry_count = st.retry_count + 1) ∨
     (st2.currlsn = min (st.currlsn + 75) (e + 1) ∧ st2.sectors = st.sectors ∧
        st2.retry_count = st.retry_count)) := by
  rw [recover_eq_claimed] at h
  unfold claimedIteration at h
  split at h
  · injection h with h; subst h; simp
  · split at h
    · rename_i h16
      injection h with h; subst h
      exact ⟨rfl, rfl, Or.inr (Or.inl ⟨rfl, h16, rfl, rfl⟩)⟩
    · split at h
      · rename_i hr
        injection h with h; subst h
        exact ⟨rfl, rfl, Or.inr (Or.inr (Or.inl ⟨rfl, rfl, hr, rfl⟩))⟩
      · split at h
        · injection h with h; subst h
          exact ⟨rfl, rfl, Or.inr (Or.inr (Or.inr ⟨rfl, rfl, rfl⟩))⟩
        · cases h

/-- A read in the trace is the read of the first pass or a read of the rest of the loop. -/
theorem readLoop_read_mem (s e : Int) (ticks : List Tick) (st : PlayState) (lsn n : Int)
    (h : Event.read lsn n ∈ (readLoop s e ticks st).events) :
    (lsn = (clampSectors e (applySeek s st).2).currlsn ∧
      n = (clampSectors e (applySeek s st).2).sectors ∧ 1 ≤ n) ∨
    ∃ t ts st2, ticks = t :: ts ∧ loopStep s e t st = some st2 ∧
      Event.read lsn n ∈ (readLoop s e ts st2).events := by
  cases ticks with
  | nil =>
    unfold readLoop at h
    split at h
    · simp at h
    · simp only at h
      split at h
      · exact absurd h (applySeek_no_read s st lsn n)
      · rename_i hs
        simp only [List.mem_append, List.mem_singleton, Event.read.injEq] at h
        rcases h with h | ⟨h1, h2⟩
        · exact absurd h (applySeek_no_read s st lsn n)
        · left
          exact ⟨h1, h2, by rw [h2]; omega⟩
  | cons t ts =>
    unfold readLoop at h
    split at h
    · simp at h
    · rename_i hp
      simp only at h
      split at h
      · exact absurd h (applySeek_no_read s st lsn n)
      · rename_i hs
        have key : Event.read lsn n ∈ (Event.read (clampSectors e (applySeek s st).2).currlsn
            (clampSectors e (applySeek s st).2).sectors ::
            (if t.ok then [Event.write (2352 * (clampSectors e (applySeek s st).2).sectors)]
              else [])) →
            lsn = (clampSectors e (applySeek s st).2).currlsn ∧
              n = (clampSectors e (applySeek s st).2).sectors ∧ 1 ≤ n := by
          intro hm
          have : lsn = (clampSectors e (applySeek s st).2).currlsn ∧
              n = (clampSectors e (applySeek s st).2).sectors := by
            cases hok : t.ok <;> simpa [hok] using hm
          exact ⟨this.1, this.2, by rw [this.2]; omega⟩
        split at h
        · simp only [List.mem_append, List.mem_singleton] at h
          rcases h with ((h | h) | h) | h
          · exact absurd h (applySeek_no_read s st lsn n)
          · exact Or.inl (key h)
          · exact absurd h (serveAll_no_read _ _ lsn n)
          · simp at h
        · rename_i st2 hrec
          simp only [Run.after, List.mem_append] at h
          rcases h with ((h | h) | h) | h
          · exact absurd h (applySeek_no_read s st lsn n)
          · exact Or.inl (key h)
          · exact absurd h (serveAll_no_read _ _ lsn n)
          · right
            refine ⟨t, ts, st2, rfl, ?_, h⟩
            unfold loopStep
            simp [hp, hs, hrec]

/-- What one pass of the loop keeps: the position stays at or after the start of the
range, the batch never grows, and a pending seek target still fits. -/
theorem loopStep_keeps (s e B : Int) (t : Tick) (st st2 : PlayState)
    (h : loopStep s e t st = some st2)
    (h1 : s ≤ st.currlsn) (h2 : st.sectors ≤ B) (h3 : st.seek_time * 75 < 2 ^ 31)
    (hc : ∀ c ∈ t.cmds, ∀ x, c = Cmd.mseek x → x * 75 < 2 ^ 31) :
    s ≤ st2.currlsn ∧ st2.sectors ≤ B ∧ st2.seek_time * 75 < 2 ^ 31 := by
  unfold loopStep at h
  split at h
  · cases h
  · simp only at h
    split at h
    · cases h
    · rename_i hs
      split at h
      · cases h
      · rename_i st3 hrec
        injection h with h
        subst h
        obtain ⟨f1, f2, f3, f4⟩ := serveAll_frame t.cmds (clampSectors e (applySeek s st).2)
        obtain ⟨a1, a2, a3, a4, a5⟩ := applySeek_frame s st
        have hl := applySeek_lower s st h1 h3
        obtain ⟨r1, r2, r3⟩ := recover_next_cases e t.ok _ _ hrec
        have hfit := serveAll_seek_fits t.cmds (clampSectors e (applySeek s st).2)
          (by
            show (applySeek s st).2.seek_time * 75 < 2 ^ 31
            have : (applySeek s st).2.seek_time < 0 := a5
            norm_num
            omega) hc
        rw [f1, f2] at r3
        simp only [clampSectors, MIN_eq_min] at hs r3 f1 f2
        rw [a1] at hs r3
        refine ⟨?_, ?_, by rw [r1]; exact hfit⟩
        · rcases r3 with r | r | r | r <;> omega
        · rcases r3 with r | r | r | r <;> omega

theorem readLoop_reads_bounded (s e B : Int) (ticks : List Tick) :
    ∀ st : PlayState, s ≤ st.currlsn → st.sectors ≤ B → st.seek_time * 75 < 2 ^ 31 →
      (∀ tk ∈ ticks, ∀ c ∈ tk.cmds, ∀ x, c = Cmd.mseek x → x * 75 < 2 ^ 31) →
      ∀ lsn n, Event.read lsn n ∈ (readLoop s e ticks st).events → n ≤ B ∧ s ≤ lsn := by
  induction ticks with
  | nil =>
    intro st h1 h2 h3 _ lsn n hm
    rcases readLoop_read_mem s e [] st lsn n hm with ⟨g1, g2, _⟩ | ⟨t, ts, st2, hnil, _, _⟩
    · have hl := applySeek_lower s st h1 h3
      have hf := (applySeek_frame s st).1
      simp only [clampSectors, MIN_eq_min] at g1 g2
      omega
    · cases hnil
  | cons t ts ih =>
    intro st h1 h2 h3 hc lsn n hm
    rcases readLoop_read_mem s e (t :: ts) st lsn n hm with ⟨g1, g2, _⟩ | ⟨t2, ts2, st2, hcons, hstep, hm2⟩
    · have hl := applySeek_lower s st h1 h3
      have hf := (applySeek_frame s st).1
      simp only [clampSectors, MIN_eq_min] at g1 g2
      omega
    · injection hcons with e1 e2
      subst e1 e2
      obtain ⟨k1, k2, k3⟩ := loopStep_keeps s e B t st st2 hstep h1 h2 h3
        (hc t (List.mem_cons_self _ _))
      exact ih st2 k1 k2 k3 (fun tk h => hc tk (List.mem_cons_of_mem _ h)) lsn n hm2

theorem batchSize_bounds (cfg : Config) : 7 ≤ batchSize cfg ∧ batchSize cfg ≤ 450 := by
  unfold batchSize
  have hc : 50 ≤ CLAMP (cdiv cfg.output_buffer_size 2) 50 250 ∧
      CLAMP (cdiv cfg.output_buffer_size 2) 50 250 ≤ 250 := by
    unfold CLAMP
    split
    · omega
    · split <;> omega
  have hs : 2 ≤ CLAMP cfg.disc_speed MIN_DISC_SPEED MAX_DISC_SPEED ∧
      CLAMP cfg.disc_speed MIN_DISC_SPEED MAX_DISC_SPEED ≤ 24 := by
    unfold CLAMP MIN_DISC_SPEED MAX_DISC_SPEED
    split
    · omega
    · split <;> omega
  generalize CLAMP (cdiv cfg.output_buffer_size 2) 50 250 = c at hc
  generalize CLAMP cfg.disc_speed MIN_DISC_SPEED MAX_DISC_SPEED = sp at hs
  simp only
  have h1 : 100 ≤ c * sp := by nlinarith
  have h2 : c * sp ≤ 6000 := by nlinarith
  rw [cdiv_of_nonneg _ _ (by omega) (by decide)]
  omega

/-- C15, counterexample.  Playing track 2 of the example disc (start sector 1000) with
the start offset 30000000 ms, whose product with 75 leaves the `int` range, reads
37 sectors at sector -2043967. -/
theorem play_reads_counterexample :
    Event.read (-2043967) 37 ∈ (cdaudio_play exampleEnv initialSession "cdda://?2".toList
      30000000 (-1) false [okTick]).events ∧
    (refresh_trackinfo exampleEnv true initialSession).2.trackinfo.map
      (fun tab => (entry exampleEnv tab 2).startlsn) = some 1000 := by
  decide

/-- C15, amended.  For every track entry, stop offset, configuration, sequence of read
outcomes and of host commands, when the start offset and every seek target `t`
satisfy `t * 75 < 2 ^ 31`: the initial batch size is between 7 and 450, and every
read of the loop asks for at least 1 and at most the initial batch size of
sectors, starts at or after the start sector and ends at or before the end
sector of the range. -/
theorem play_reads_in_range (env : Env) (s : Session) (tab : List trackinfo_t)
    (trackno start stop : Int) (pause : Bool) (ticks : List Tick)
    (hstart : start * 75 < 2 ^ 31)
    (hseek : ∀ tk ∈ ticks, ∀ c ∈ tk.cmds, ∀ t, c = Cmd.mseek t → t * 75 < 2 ^ 31) :
    7 ≤ batchSize env.config ∧ batchSize env.config ≤ 450 ∧
    ∀ lsn n, Event.read lsn n ∈ (playTrack env s tab trackno start stop pause ticks).events →
      1 ≤ n ∧ n ≤ batchSize env.config ∧
      (entry env tab trackno).startlsn ≤ lsn ∧
      lsn + n - 1 ≤ playEndLsn (entry env tab trackno).startlsn (entry env tab trackno).endlsn
        stop := by
  refine ⟨(batchSize_bounds env.config).1, (batchSize_bounds env.config).2, ?_⟩
  intro lsn n hm
  have hm2 : Event.read lsn n ∈ (readLoop (entry env tab trackno).startlsn
      (playEndLsn (entry env tab trackno).startlsn (entry env tab trackno).endlsn stop) ticks
      { currlsn := (entry env tab trackno).startlsn, sectors := batchSize env.config,
        retry_count := 0, skip_count := 0, seek_time := if start > 0 then start else -1,
        playing := true }).events := by
    unfold playTrack at hm
    simp only at hm
    split at hm
    · simp only [List.mem_append] at hm
      rcases hm with (hm | hm) | hm
      · cases pause <;> simp at hm
      · simp at hm
      · exact hm
    · simp only [List.mem_append] at hm
      rcases hm with (hm | hm) | hm
      · cases pause <;> simp at hm
      · simp at hm
      · exact hm
  have hfit : (if start > 0 then start else -1) * 75 < 2 ^ 31 := by
    split
    · exact hstart
    · decide
  obtain ⟨a1, a2⟩ := readLoop_reads_le_end _ _ ticks _ lsn n hm2
  obtain ⟨b1, b2⟩ := readLoop_reads_bounded (entry env tab trackno).startlsn
    (playEndLsn (entry env tab trackno).startlsn (entry env tab trackno).endlsn stop)
    (batchSize env.config) ticks
    { currlsn := (entry env tab trackno).startlsn, sectors := batchSize env.config,
      retry_count := 0, skip_count := 0, seek_time := if start > 0 then start else -1,
      playing := true } (le_refl _) (le_refl _) hfit hseek lsn n hm2
  exact ⟨a1, b1, b2, a2⟩

/-- C15, witness: a start offset of 5000 ms and a seek to 7000 ms. -/
theorem play_reads_in_range_witness :
    7 ≤ batchSize exampleEnv.config ∧ batchSize exampleEnv.config ≤ 450 ∧
    ∀ lsn n, Event.read lsn n ∈ (playTrack exampleEnv initialSession
        [exampleEnv.garbage, exampleEnv.garbage, ⟨[], [], [], 1000, 1999⟩] 2 5000 (-1) false
        [okTick, ⟨false, [Cmd.mseek 7000]⟩, okTick]).events →
      1 ≤ n ∧ n ≤ batchSize exampleEnv.config ∧
      (entry exampleEnv [exampleEnv.garbage, exampleEnv.garbage, ⟨[], [], [], 1000, 1999⟩]
        2).startlsn ≤ lsn ∧
      lsn + n - 1 ≤ playEndLsn
        (entry exampleEnv [exampleEnv.garbage, exampleEnv.garbage, ⟨[], [], [], 1000, 1999⟩]
          2).startlsn
        (entry exampleEnv [exampleEnv.garbage, exampleEnv.garbage, ⟨[], [], [], 1000, 1999⟩]
          2).endlsn (-1) :=
  play_reads_in_range exampleEnv initialSession
    [exampleEnv.garbage, exampleEnv.garbage, ⟨[], [], [], 1000, 1999⟩] 2 5000 (-1) false
    [okTick, ⟨false, [Cmd.mseek 7000]⟩, okTick] (by decide)
    (by
      intro tk htk c hc t h
      simp only [List.mem_cons, List.mem_singleton, List.not_mem_nil, or_false] at htk
      rcases htk with rfl | rfl | rfl
      · simp [okTick] at hc
      · simp only [List.mem_singleton] at hc
        subst hc
        injection h with h
        subst h
        decide
      · simp [okTick] at hc)

theorem loopStep_cases (s e : Int) (t : Tick) (st st2 : PlayState)
    (h : loopStep s e t st = some st2) (hc : ∀ c ∈ t.cmds, ∀ x, c ≠ Cmd.mseek x) :
    st.playing = true ∧ st2.seek_time < 0 ∧
    1 ≤ min st.sectors (e + 1 - (applySeek s st).2.currlsn) ∧
    ((st2.currlsn = (applySeek s st).2.currlsn +
          min st.sectors (e + 1 - (applySeek s st).2.currlsn) ∧
        st2.sectors = min st.sectors (e + 1 - (applySeek s st).2.currlsn) ∧
        st2.retry_count = 0) ∨
     (st2.currlsn = (applySeek s st).2.currlsn ∧
        16 < min st.sectors (e + 1 - (applySeek s st).2.currlsn) ∧
        st2.sectors = min st.sectors (e + 1 - (applySeek s st).2.currlsn) / 2 ∧
        st2.retry_count = st.retry_count) ∨
     (st2.currlsn = (applySeek s st).2.currlsn ∧
        st2.sectors = min st.sectors (e + 1 - (applySeek s st).2.currlsn) ∧
        st.retry_count < 10 ∧ st2.retry_count = st.retry_count + 1) ∨
     (st2.currlsn = min ((applySeek s st).2.currlsn + 75) (e + 1) ∧
        st2.sectors = min st.sectors (e + 1 - (applySeek s st).2.currlsn) ∧
        st2.retry_count = st.retry_count)) := by
  unfold loopStep at h
  split at h
  · cases h
  · rename_i hp
    simp only at h
    split at h
    · cases h
    · rename_i hs
      split at h
      · cases h
      · rename_i st3 hrec
        injection h with h
        subst h
        obtain ⟨f1, f2, f3, _⟩ := serveAll_frame t.cmds (clampSectors e (applySeek s st).2)
        obtain ⟨a1, _, a3, _, a5⟩ := applySeek_frame s st
        obtain ⟨r1, _, r3⟩ := recover_next_cases e t.ok _ _ hrec
        have hst := serveAll_seek_time t.cmds (clampSectors e (applySeek s st).2) hc
        rw [f1, f2, f3] at r3
        simp only [clampSectors, MIN_eq_min] at hs r3
        rw [a1] at hs r3
        rw [a3] at r3
        refine ⟨by simpa using hp, by rw [r1, hst]; exact a5, by omega, r3⟩

theorem applySeek_of_neg (s : Int) (st : PlayState) (h : st.seek_time < 0) :
    applySeek s st = ([], st) := by
  unfold applySeek
  rw [if_neg (by omega)]

theorem loopStep_playing (s e : Int) (t : Tick) (st st2 : PlayState)
    (h : loopStep s e t st = some st2) (hc : ∀ c ∈ t.cmds, ∃ f, c = Cmd.pause f) :
    st2.playing = true := by
  have hserve : ∀ (cmds : List Cmd) (x : PlayState), (∀ c ∈ cmds, ∃ f, c = Cmd.pause f) →
      (serveAll cmds x).2.playing = x.playing := by
    intro cmds
    induction cmds with
    | nil => intro x _; rfl
    | cons c cs ih =>
      intro x hx
      obtain ⟨f, rfl⟩ := hx c (List.mem_cons_self _ _)
      simpa [serveAll, serve] using ih x (fun c hc => hx c (List.mem_cons_of_mem _ hc))
  unfold loopStep at h
  split at h
  · cases h
  · rename_i hp
    simp only at h
    split at h
    · cases h
    · split at h
      · cases h
      · rename_i st3 hrec
        injection h with h
        subst h
        obtain ⟨_, r2, _⟩ := recover_next_cases e t.ok _ _ hrec
        rw [r2, hserve t.cmds _ hc]
        show (applySeek s st).2.playing = true
        rw [(applySeek_frame s st).2.1]
        simpa using hp

theorem readLoop_cons_some (s e : Int) (t : Tick) (st st2 : PlayState)
    (h : loopStep s e t st = some st2) :
    ∃ evs br, ∀ ts, readLoop s e (t :: ts) st = (readLoop s e ts st2).after evs [br] := by
  unfold loopStep at h
  split at h
  · cases h
  · rename_i hp
    simp only at h
    split at h
    · cases h
    · rename_i hs
      split at h
      · cases h
      · rename_i st3 hrec
        injection h with h
        subst h
        refine ⟨(applySeek s st).1 ++
            (Event.read (clampSectors e (applySeek s st).2).currlsn
              (clampSectors e (applySeek s st).2).sectors ::
              (if t.ok then [Event.write (2352 * (clampSectors e (applySeek s st).2).sectors)]
                else [])) ++
            (serveAll t.cmds (clampSectors e (applySeek s st).2)).1,
          branch t.ok (serveAll t.cmds (clampSectors e (applySeek s st).2)).2, fun ts => ?_⟩
        rw [readLoop]
        simp only [hp, Bool.false_eq_true, if_false, hs, hrec]

theorem readLoop_cons_none (s e : Int) (t : Tick) (st : PlayState)
    (h : loopStep s e t st = none) :
    ∃ r : Run, (∀ ts, readLoop s e (t :: ts) st = r) ∧
      ((r.exit = some Exit.stopped ∧ st.playing = false) ∨ r.exit = some Exit.exhausted ∨
        r.exit = some Exit.fatal) := by
  unfold loopStep at h
  by_cases hp : (!st.playing) = true
  · refine ⟨Run.mk [] [] st (some Exit.stopped),
      fun ts => ?_, Or.inl ⟨rfl, by simpa using hp⟩⟩
    rw [readLoop]
    simp only [hp, if_true]
  · simp only [hp, if_false] at h
    by_cases hs : (clampSectors e (applySeek s st).2).sectors < 1
    · refine ⟨Run.mk (applySeek s st).1 [] (clampSectors e (applySeek s st).2)
          (some Exit.exhausted), fun ts => ?_, Or.inr (Or.inl rfl)⟩
      rw [readLoop]
      simp only [hp, Bool.false_eq_true, if_false, hs, if_true]
    · simp only [hs, if_false] at h
      cases hrec : recover e t.ok (serveAll t.cmds (clampSectors e (applySeek s st).2)).2 with
      | giveUp =>
        refine ⟨Run.mk ((applySeek s st).1 ++
              (Event.read (clampSectors e (applySeek s st).2).currlsn
                (clampSectors e (applySeek s st).2).sectors ::
                (if t.ok then [Event.write (2352 * (clampSectors e (applySeek s st).2).sectors)]
                  else [])) ++
              (serveAll t.cmds (clampSectors e (applySeek s st).2)).1 ++
              [Event.error "Error reading audio CD."])
            [Branch.giveUp] (serveAll t.cmds (clampSectors e (applySeek s st).2)).2
            (some Exit.fatal),
          fun ts => ?_, Or.inr (Or.inr rfl)⟩
        rw [readLoop]
        simp only [hp, Bool.false_eq_true, if_false, hs, hrec]
      | next st2 => simp [hrec] at h

theorem Run.after_exit (evs : List Event) (brs : List Branch) (r : Run) :
    (r.after evs brs).exit = r.exit := rfl

/-- Once the loop has left, ticks that were not used make no difference. -/
theorem readLoop_append (s e : Int) (ts more : List Tick) :
    ∀ st : PlayState, (readLoop s e ts st).exit ≠ none →
      readLoop s e (ts ++ more) st = readLoop s e ts st := by
  induction ts with
  | nil =>
    intro st h
    cases more with
    | nil => rfl
    | cons t ts2 =>
      rw [List.nil_append]
      rw [readLoop] at h ⊢
      rw [readLoop]
      by_cases hp : (!st.playing) = true
      · simp only [hp, if_true]
      · simp only [hp, Bool.false_eq_true, if_false] at h ⊢
        by_cases hs : (clampSectors e (applySeek s st).2).sectors < 1
        · simp only [hs, if_true]
        · simp [hs] at h
  | cons t ts ih =>
    intro st h
    rw [List.cons_append]
    cases hstep : loopStep s e t st with
    | none =>
      obtain ⟨r, hr, _⟩ := readLoop_cons_none s e t st hstep
      rw [hr, hr]
    | some st2 =>
      obtain ⟨evs, br, hr⟩ := readLoop_cons_some s e t st st2 hstep
      rw [hr, Run.after_exit] at h
      rw [hr, hr, ih st2 h]

theorem readLoop_not_stopped (s e : Int) (ticks : List Tick) :
    ∀ st : PlayState, st.playing = true → onlyPause ticks →
      (readLoop s e ticks st).exit ≠ some Exit.stopped := by
  induction ticks with
  | nil =>
    intro st hp _
    rw [readLoop]
    simp only [hp, Bool.not_true, Bool.false_eq_true, if_false]
    split <;> simp
  | cons t ts ih =>
    intro st hp hc
    cases hstep : loopStep s e t st with
    | none =>
      obtain ⟨r, hr, hx⟩ := readLoop_cons_none s e t st hstep
      rw [hr]
      rcases hx with ⟨_, h⟩ | h | h
      · rw [hp] at h
        cases h
      · rw [h]; simp
      · rw [h]; simp
    | some st2 =>
      obtain ⟨evs, br, hr⟩ := readLoop_cons_some s e t st st2 hstep
      rw [hr, Run.after_exit]
      exact ih st2 (loopStep_playing s e t st st2 hstep (hc t (List.mem_cons_self _ _)))
        (fun tk h => hc tk (List.mem_cons_of_mem _ h))

theorem loopStep_none_of_small (s e : Int) (t : Tick) (st : PlayState)
    (hs : st.seek_time < 0) (h : e + 1 - st.currlsn ≤ 0 ∨ st.sectors ≤ 0) :
    loopStep s e t st = none := by
  unfold loopStep
  split
  · rfl
  · simp only
    rw [applySeek_of_neg s st hs]
    have : (clampSectors e st).sectors < 1 := by
      simp only [clampSectors, MIN_eq_min]
      omega
    simp [this]

/-- The loop leaves within a number of reads that depends only on bounds for the
three components of the measure. -/
theorem loop_exits_within (s e : Int) :
    ∀ R B T : Nat, ∃ N : Nat, ∀ st : PlayState, st.seek_time < 0 →
      e + 1 - st.currlsn ≤ (R : Int) → st.sectors ≤ (B : Int) → 10 - st.retry_count ≤ (T : Int) →
      ∀ ticks : List Tick, N ≤ ticks.length →
        (∀ tk ∈ ticks, ∀ c ∈ tk.cmds, ∀ x, c ≠ Cmd.mseek x) →
        (readLoop s e ticks st).exit ≠ none := by
  have small : ∀ st : PlayState, st.seek_time < 0 →
      (e + 1 - st.currlsn ≤ 0 ∨ st.sectors ≤ 0) → ∀ ticks : List Tick, 1 ≤ ticks.length →
      (readLoop s e ticks st).exit ≠ none := by
    intro st hs h ticks hlen
    cases ticks with
    | nil => simp at hlen
    | cons t ts =>
      obtain ⟨r, hr, hx⟩ := readLoop_cons_none s e t st (loopStep_none_of_small s e t st hs h)
      rw [hr]
      rcases hx with ⟨h, _⟩ | h | h <;> rw [h] <;> simp
  intro R
  induction R with
  | zero =>
    intro B T
    exact ⟨1, fun st hs hr _ _ ticks hlen _ => small st hs (Or.inl (by simpa using hr)) ticks hlen⟩
  | succ R ihR =>
    intro B
    induction B with
    | zero =>
      intro T
      exact ⟨1, fun st hs _ hb _ ticks hlen _ =>
        small st hs (Or.inr (by simpa using hb)) ticks hlen⟩
    | succ B ihB =>
      intro T
      induction T using Nat.strong_induction_on with
      | _ T ihT =>
        obtain ⟨N1, h1⟩ := ihR (B + 1) (max T 10)
        obtain ⟨N2, h2⟩ := ihB T
        obtain ⟨N3, h3⟩ : ∃ N3 : Nat, T ≠ 0 → ∀ st : PlayState, st.seek_time < 0 →
            e + 1 - st.currlsn ≤ ((R + 1 : Nat) : Int) → st.sectors ≤ ((B + 1 : Nat) : Int) →
            10 - st.retry_count ≤ ((T - 1 : Nat) : Int) →
            ∀ ticks : List Tick, N3 ≤ ticks.length →
              (∀ tk ∈ ticks, ∀ c ∈ tk.cmds, ∀ x, c ≠ Cmd.mseek x) →
              (readLoop s e ticks st).exit ≠ none := by
          by_cases hT : T = 0
          · exact ⟨0, fun h => absurd hT h⟩
          · obtain ⟨N, h⟩ := ihT (T - 1) (by omega)
            exact ⟨N, fun _ => h⟩
        refine ⟨1 + max N1 (max N2 N3), ?_⟩
        intro st hs hr hb ht ticks hlen hc
        cases ticks with
        | nil => simp at hlen
        | cons t ts =>
          have hlen2 : max N1 (max N2 N3) ≤ ts.length := by
            simp only [List.length_cons] at hlen
            omega
          have hc2 : ∀ tk ∈ ts, ∀ c ∈ tk.cmds, ∀ x, c ≠ Cmd.mseek x :=
            fun tk h => hc tk (List.mem_cons_of_mem _ h)
          cases hstep : loopStep s e t st with
          | none =>
            obtain ⟨r, hr, hx⟩ := readLoop_cons_none s e t st hstep
            rw [hr]
            rcases hx with ⟨h, _⟩ | h | h <;> rw [h] <;> simp
          | some st2 =>
            obtain ⟨evs, br, hrun⟩ := readLoop_cons_some s e t st st2 hstep
            rw [hrun, Run.after_exit]
            obtain ⟨_, g1, g2, g3⟩ := loopStep_cases s e t st st2 hstep
              (hc t (List.mem_cons_self _ _))
            rw [applySeek_of_neg s st hs] at g2 g3
            simp only at g2 g3
            push_cast at hr hb h3
            rcases g3 with g | g | g | g
            · exact h1 st2 g1 (by omega) (by push_cast; omega) (by push_cast; omega) ts
                (by omega) hc2
            · exact h2 st2 g1 (by push_cast; omega) (by omega) (by omega) ts (by omega) hc2
            · have hT : T ≠ 0 := by omega
              exact h3 hT st2 g1 (by omega) (by omega)
                (by
                  have : ((T - 1 : Nat) : Int) = (T : Int) - 1 := by omega
                  rw [this]
                  omega) ts (by omega) hc2
            · exact h1 st2 g1 (by omega) (by push_cast; omega) (by push_cast; omega) ts
                (by omega) hc2

theorem readLoop_after_applySeek (s e : Int) (ticks : List Tick) (st : PlayState)
    (hp : st.playing = true) :
    readLoop s e ticks st = (readLoop s e ticks (applySeek s st).2).after (applySeek s st).1 [] := by
  by_cases h : st.seek_time < 0
  · rw [applySeek_of_neg s st h, Run.after_nil]
  · have h0 : 0 ≤ st.seek_time := by omega
    rw [readLoop_seek s e ticks st hp h0]
    congr 1
    unfold applySeek
    rw [if_pos (by omega)]

theorem loopStep_decreases (s e : Int) (t : Tick) (st st2 : PlayState)
    (h : loopStep s e t st = some st2) (hc : ∀ c ∈ t.cmds, ∀ x, c ≠ Cmd.mseek x)
    (hseek : st.seek_time < 0 ∨ (st.seek_time * 75 < 2 ^ 31 ∧ st.currlsn ≤ s)) :
    lexLess (loopMeasure e st2) (loopMeasure e st) := by
  obtain ⟨_, _, g2, g3⟩ := loopStep_cases s e t st st2 h hc
  have hge : st.currlsn ≤ (applySeek s st).2.currlsn := by
    by_cases hneg : st.seek_time < 0
    · rw [applySeek_of_neg s st hneg]
    · rcases hseek with h1 | ⟨h1, h2⟩
      · exact absurd h1 hneg
      · have h0 : 0 ≤ st.seek_time := by omega
        unfold applySeek
        rw [if_pos (by omega)]
        simp only
        rw [ms_to_sectors _ h0 h1]
        omega
  unfold lexLess loopMeasure
  simp only
  generalize (applySeek s st).2.currlsn = c at g2 g3 hge
  rcases g3 with g | g | g | g <;> omega

theorem playTrack_returns (env : Env) (sess : Session) (tab : List trackinfo_t)
    (trackno start stop : Int) (pause : Bool) (ticks : List Tick)
    (h : (readLoop (entry env tab trackno).startlsn
      (playEndLsn (entry env tab trackno).startlsn (entry env tab trackno).endlsn stop) ticks
      { currlsn := (entry env tab trackno).startlsn, sectors := batchSize env.config,
        retry_count := 0, skip_count := 0, seek_time := if start > 0 then start else -1,
        playing := true }).exit ≠ none) :
    (playTrack env sess tab trackno start stop pause ticks).ret = some true ∧
    (playTrack env sess tab trackno start stop pause ticks).session.playing = false := by
  unfold playTrack
  simp only
  split
  · rename_i hx
    exact absurd hx h
  · exact ⟨rfl, rfl⟩

/-- C16, counterexample.  With the start offset 30000000 ms pending the first pass of
the loop moves the position from 1000 to -2043930: the sectors remaining grow
from 1000 to 2045930, so the measure does not decrease. -/
theorem loop_measure_counterexample :
    loopStep 1000 1999 okTick ⟨1000, 37, 0, 0, 30000000, true⟩ =
      some ⟨-2043930, 37, 0, 0, -1, true⟩ ∧
    loopMeasure 1999 ⟨1000, 37, 0, 0, 30000000, true⟩ = (1000, 37, 10) ∧
    loopMeasure 1999 ⟨-2043930, 37, 0, 0, -1, true⟩ = (2045930, 37, 10) ∧
    ¬ lexLess (2045930, 37, 10) (1000, 37, 10) ∧
    (cdaudio_play exampleEnv initialSession "cdda://?2".toList 30000000 (-1) false
      [okTick]).events.drop 8 =
      [Event.flush 30000000, Event.read (-2043967) 37, Event.write 87024,
       Event.read (-2043930) 37] := by
  refine ⟨by decide, by decide, by decide, ?_, by decide⟩
  unfold lexLess
  decide

theorem readLoop_not_playing (s e : Int) (ticks : List Tick) (st : PlayState)
    (hp : st.playing = false) :
    readLoop s e ticks st = Run.mk [] [] st (some Exit.stopped) := by
  cases ticks <;> (rw [readLoop]; simp [hp])

/-- C16, amended.  For every range and every state of the loop there is a number `N`
such that on every supply of at least `N` ticks without seek commands the loop
leaves, using at most the first `N` ticks; when the host sends no stop either,
it leaves because the range is exhausted or the read error is fatal.
`cdaudio_play` then returns true with `playing` false.  Every pass of the loop
without a seek request strictly decreases the measure (sectors remaining, batch
size, 10 - retry count) in the lexicographic order, provided no seek is pending
or the pending target `t` has `t * 75 < 2 ^ 31` and the position is not beyond the
start sector. -/
theorem read_loop_terminates :
    (∀ (s e : Int) (st : PlayState),
      ∃ N : Nat, ∀ ticks : List Tick, N ≤ ticks.length →
        (∀ tk ∈ ticks, ∀ c ∈ tk.cmds, ∀ x, c ≠ Cmd.mseek x) →
        (readLoop s e ticks st).exit ≠ none ∧
        readLoop s e ticks st = readLoop s e (ticks.take N) st ∧
        (st.playing = true → onlyPause ticks →
          (readLoop s e ticks st).exit = some Exit.exhausted ∨
          (readLoop s e ticks st).exit = some Exit.fatal)) ∧
    (∀ (env : Env) (sess : Session) (tab : List trackinfo_t) (trackno start stop : Int)
        (pause : Bool),
      ∃ N : Nat, ∀ ticks : List Tick, N ≤ ticks.length →
        (∀ tk ∈ ticks, ∀ c ∈ tk.cmds, ∀ x, c ≠ Cmd.mseek x) →
        (playTrack env sess tab trackno start stop pause ticks).ret = some true ∧
        (playTrack env sess tab trackno start stop pause ticks).session.playing = false) ∧
    (∀ (s e : Int) (t : Tick) (st st2 : PlayState), loopStep s e t st = some st2 →
      (∀ c ∈ t.cmds, ∀ x, c ≠ Cmd.mseek x) →
      (st.seek_time < 0 ∨ (st.seek_time * 75 < 2 ^ 31 ∧ st.currlsn ≤ s)) →
      lexLess (loopMeasure e st2) (loopMeasure e st)) := by
  have part1 : ∀ (s e : Int) (st : PlayState),
      ∃ N : Nat, ∀ ticks : List Tick, N ≤ ticks.length →
        (∀ tk ∈ ticks, ∀ c ∈ tk.cmds, ∀ x, c ≠ Cmd.mseek x) →
        (readLoop s e ticks st).exit ≠ none ∧
        readLoop s e ticks st = readLoop s e (ticks.take N) st ∧
        (st.playing = true → onlyPause ticks →
          (readLoop s e ticks st).exit = some Exit.exhausted ∨
          (readLoop s e ticks st).exit = some Exit.fatal) := by
    intro s e st
    by_cases hp : st.playing = true
    swap
    · have hp2 : st.playing = false := by simpa using hp
      refine ⟨0, fun ticks _ _ => ⟨?_, ?_, fun h => absurd h hp⟩⟩
      · rw [readLoop_not_playing s e ticks st hp2]
        simp
      · rw [readLoop_not_playing s e ticks st hp2, readLoop_not_playing s e _ st hp2]
    obtain ⟨a1, _, a3, _, a5⟩ := applySeek_frame s st
    obtain ⟨N, hN⟩ := loop_exits_within s e (e + 1 - (applySeek s st).2.currlsn).toNat
      (applySeek s st).2.sectors.toNat (10 - (applySeek s st).2.retry_count).toNat
    refine ⟨N, ?_⟩
    intro ticks hlen hc
    have htake : ∀ tk ∈ ticks.take N, ∀ c ∈ tk.cmds, ∀ x, c ≠ Cmd.mseek x :=
      fun tk htk => hc tk (List.mem_of_mem_take htk)
    have hex : (readLoop s e (ticks.take N) (applySeek s st).2).exit ≠ none :=
      hN (applySeek s st).2 a5 (by omega) (by omega) (by omega) (ticks.take N)
        (by rw [List.length_take]; omega) htake
    have happ : readLoop s e ticks (applySeek s st).2 =
        readLoop s e (ticks.take N) (applySeek s st).2 := by
      have := readLoop_append s e (ticks.take N) (ticks.drop N) (applySeek s st).2 hex
      rwa [List.take_append_drop] at this
    have heq : readLoop s e ticks st = readLoop s e (ticks.take N) st := by
      rw [readLoop_after_applySeek s e ticks st hp,
        readLoop_after_applySeek s e (ticks.take N) st hp, happ]
    have hne : (readLoop s e ticks st).exit ≠ none := by
      rw [readLoop_after_applySeek s e ticks st hp, Run.after_exit, happ]
      exact hex
    refine ⟨hne, heq, ?_⟩
    intro _ hpause
    have hns := readLoop_not_stopped s e ticks st hp hpause
    cases hx : (readLoop s e ticks st).exit with
    | none => exact absurd hx hne
    | some x =>
      cases x with
      | stopped => exact absurd hx hns
      | exhausted => exact Or.inl rfl
      | fatal => exact Or.inr rfl
  refine ⟨part1, ?_, fun s e => loopStep_decreases s e⟩
  intro env sess tab trackno start stop pause
  obtain ⟨N, hN⟩ := part1 (entry env tab trackno).startlsn
    (playEndLsn (entry env tab trackno).startlsn (entry env tab trackno).endlsn stop)
    { currlsn := (entry env tab trackno).startlsn, sectors := batchSize env.config,
      retry_count := 0, skip_count := 0, seek_time := if start > 0 then start else -1,
      playing := true }
  refine ⟨N, fun ticks hlen hc => ?_⟩
  apply playTrack_returns
  exact (hN ticks hlen hc).1

/-- C16, witness: a successful read and a retried read in the range 1000 to 1999. -/
theorem read_loop_terminates_witness :
    lexLess (loopMeasure 1999 ⟨1037, 37, 0, 0, -1, true⟩)
      (loopMeasure 1999 ⟨1000, 37, 3, 0, -1, true⟩) ∧
    lexLess (loopMeasure 1999 ⟨1000, 8, 4, 0, -1, true⟩)
      (loopMeasure 1999 ⟨1000, 8, 3, 0, -1, true⟩) :=
  ⟨read_loop_terminates.2.2 1000 1999 okTick ⟨1000, 37, 3, 0, -1, true⟩
      ⟨1037, 37, 0, 0, -1, true⟩ (by decide) (by simp [okTick]) (Or.inl (by decide)),
   read_loop_terminates.2.2 1000 1999 failTick ⟨1000, 8, 3, 0, -1, true⟩
      ⟨1000, 8, 4, 0, -1, true⟩ (by decide) (by simp [failTick]) (Or.inl (by decide))⟩

end CdAudio
